import Mathlib

/-!
Claim handling and key synchronisation of the rook-cephfs-provisioner.

A shallow embedding of `provisioner.go` and of `Controller.sync` from
`controller.go`.  The Kubernetes record store and the local filesystem are
an explicit `World` value that every operation threads through; each call
made against them is appended to `World.log` together with the error it
returned, so statements about "which calls were issued" are statements about
that log.  Failures that do not follow from the stored data (transport
errors, conflicts, permissions) come from `Env.fault`.

The filesystem is the list of paths at which an entry exists, which is all
`os.Stat` observes here, together with the list of those entries that are
directories.  Names are taken to need no escaping under the `%q` verb, so
the store's already-exists message is the text `isPVAlreadyExistsError`
searches for.
-/

namespace RookCephfs

/-! ## Go values -/

/-- Go `error` value: its message and the two classifications the program
tests, `errors.IsNotFound` (record store) and `os.IsNotExist` (filesystem). -/
structure GoError where
  msg : String
  notFound : Bool
  notExist : Bool
deriving DecidableEq, Repr

/-- Plain error as built by `fmt.Errorf`: only a message. -/
def Errorf (msg : String) : GoError := ⟨msg, false, false⟩

/-- Rendering of an error under the `%v` verb. -/
def GoError.Error (e : GoError) : String := e.msg

/-- Scan used by `strings.Index`: position-independent search of `sub` in `s`. -/
def indexFrom (sub : List Char) : List Char → Bool
  | [] => sub.isEmpty
  | c :: cs => sub.isPrefixOf (c :: cs) || indexFrom sub cs

/-- Test `strings.Index(s, sub) != -1`. -/
def strings.Contains (s sub : String) : Bool := indexFrom sub.data s.data

/-- Pieces of `strings.Split(s, "/")` on character lists. -/
def splitSlash : List Char → List (List Char)
  | [] => [[]]
  | c :: cs =>
    match splitSlash cs with
    | [] => [[]]
    | x :: xs => if c = '/' then [] :: x :: xs else (c :: x) :: xs

/-- One element of the path processed by `path.Clean`; `stack` holds
the elements kept so far, last one first. -/
def cleanStep (rooted : Bool) (stack : List (List Char)) (e : List Char) : List (List Char) :=
  if e = [] ∨ e = ['.'] then stack
  else if e = ['.', '.'] then
    match stack with
    | [] => if rooted then [] else [e]
    | top :: rest => if top = ['.', '.'] then e :: stack else rest
  else e :: stack

/-- Go standard library `path.Clean`: the shortest lexically equivalent path. -/
def path.Clean (p : String) : String :=
  let rooted := p.data.head? = some '/'
  let stack := (splitSlash p.data).foldl (cleanStep rooted) []
  let body := String.intercalate "/" (stack.reverse.map String.mk)
  if rooted then "/" ++ body else if body = "" then "." else body

/-- Go standard library `path.Join` for two elements: empty elements are
ignored and the result is cleaned. -/
def path.Join (a b : String) : String :=
  if a ≠ "" then path.Clean (a ++ "/" ++ b)
  else if b ≠ "" then path.Clean b
  else ""

/-! ## Kubernetes records -/

/-- Name of the controller's finalizer (`const finalizerName`). -/
def finalizerName : String := "nect.com/rook-cephfs-provisioner"

/-- Phase constant `v1.ClaimPending`. -/
def ClaimPending : String := "Pending"

/-- Resource name constant `v1.ResourceStorage`. -/
def ResourceStorage : String := "storage"

/-- Stand-in for `resource.Quantity`; the zero value is `0`. -/
abbrev Quantity := Int

/-- Type `v1.ResourceList`, a map from resource name to quantity. -/
abbrev ResourceList := List (String × Quantity)

/-- Go map read `rl[k]`: the zero value when the key is absent. -/
def ResourceList.get (rl : ResourceList) (k : String) : Quantity :=
  (rl.lookup k).getD 0

/-- Fields of `v1.PersistentVolumeClaim` the program reads or writes. -/
structure PersistentVolumeClaim where
  Name : String
  Namespace : String
  UID : String
  Finalizers : List String
  DeletionTimestamp : Option Nat
  StorageClassName : Option String
  AccessModes : List String
  Requests : ResourceList
  Phase : String
deriving DecidableEq, Repr

/-- Type `v1.ObjectReference` as filled in by `ref.GetReference`. -/
structure ObjectReference where
  Kind : String
  APIVersion : String
  Namespace : String
  Name : String
  UID : String
deriving DecidableEq, Repr

/-- Type `v1.FlexPersistentVolumeSource`. -/
structure FlexPersistentVolumeSource where
  Driver : String
  FSType : String
  Options : List (String × String)
deriving DecidableEq, Repr

/-- Fields of `v1.PersistentVolume` set by `newPVforPVC`. -/
structure PersistentVolume where
  Name : String
  StorageClassName : String
  AccessModes : List String
  Capacity : ResourceList
  ClaimRef : ObjectReference
  FlexVolume : FlexPersistentVolumeSource
deriving DecidableEq, Repr

/-! ## The outside world -/

/-- Calls the program makes against the record store and the filesystem. -/
inductive Call where
  | updatePVC (pvc : PersistentVolumeClaim)
  | createPV (pv : PersistentVolume)
  | deletePV (name : String)
  | stat (path : String)
  | mkdir (path : String)
  | removeAll (path : String)
deriving DecidableEq, Repr

/-- Verb of a call, without its argument. -/
inductive Verb where
  | updatePVC | createPV | deletePV | stat | mkdir | removeAll
deriving DecidableEq, Repr

/-- Verb of a call. -/
def Call.verb : Call → Verb
  | .updatePVC _ => .updatePVC
  | .createPV _ => .createPV
  | .deletePV _ => .deletePV
  | .stat _ => .stat
  | .mkdir _ => .mkdir
  | .removeAll _ => .removeAll

/-- One issued call and the error it returned (`none` for nil). -/
structure Event where
  call : Call
  err : Option GoError
deriving DecidableEq, Repr

/-- An operation succeeded when it returned no error; the existence query
also succeeded when it answered "does not exist". -/
def Event.succeeded (e : Event) : Bool :=
  match e.err with
  | none => true
  | some x => e.call.verb == Verb.stat && x.notExist

/-- State of the record store and of the local filesystem, with the log
of calls issued so far.  `paths` lists every path at which an entry (file or
directory) exists, `dirs` those of them that are directories. -/
structure World where
  claims : List PersistentVolumeClaim
  volumes : List PersistentVolume
  paths : List String
  dirs : List String
  log : List Event
deriving DecidableEq, Repr

/-- Behaviour of the surroundings that is not determined by `World`:
`fault c` is the message of a failure the call `c` meets for outside reasons,
and `GetReference` is `ref.GetReference(scheme.Scheme, ·)`. -/
structure Env where
  fault : Call → Option String
  GetReference : PersistentVolumeClaim → Except GoError ObjectReference

/-- Append one event to the log. -/
def World.record (w : World) (c : Call) (e : Option GoError) : World :=
  { w with log := w.log ++ [⟨c, e⟩] }

/-- Events logged between world `w` and a later world `w1`. -/
def events (w w1 : World) : List Event := w1.log.drop w.log.length

/-- Two claims denote the same stored record: same namespace and name. -/
def sameKey (a b : PersistentVolumeClaim) : Bool :=
  a.Namespace == b.Namespace && a.Name == b.Name

/-- Stored claim with the given namespace and name. -/
def World.getPVC (w : World) (ns name : String) : Option PersistentVolumeClaim :=
  w.claims.find? (fun c => c.Namespace == ns && c.Name == name)

/-- Stored volume with the given name. -/
def World.getPV (w : World) (name : String) : Option PersistentVolume :=
  w.volumes.find? (fun v => v.Name == name)

/-- Store verb `PersistentVolumeClaims(ns).Update(pvc)`: replaces the stored
claim of the same namespace and name and returns it; not-found when there is
none. -/
def PersistentVolumeClaims.Update (env : Env) (pvc : PersistentVolumeClaim) (w : World) :
    Except GoError PersistentVolumeClaim × World :=
  match env.fault (.updatePVC pvc) with
  | some m => (.error (Errorf m), w.record (.updatePVC pvc) (some (Errorf m)))
  | none =>
    if w.claims.any (sameKey pvc) then
      (.ok pvc, { w.record (.updatePVC pvc) none with
                  claims := w.claims.map (fun c => if sameKey pvc c then pvc else c) })
    else
      let e : GoError := ⟨"persistentvolumeclaims \"" ++ pvc.Name ++ "\" not found", true, false⟩
      (.error e, w.record (.updatePVC pvc) (some e))

/-- Store verb `PersistentVolumes().Create(pv)`: adds the volume and returns
it; an already-exists error when a volume of that name is stored. -/
def PersistentVolumes.Create (env : Env) (pv : PersistentVolume) (w : World) :
    Except GoError PersistentVolume × World :=
  match env.fault (.createPV pv) with
  | some m => (.error (Errorf m), w.record (.createPV pv) (some (Errorf m)))
  | none =>
    if w.volumes.any (fun v => v.Name == pv.Name) then
      let e : GoError := Errorf ("persistentvolumes \"" ++ pv.Name ++ "\" already exists")
      (.error e, w.record (.createPV pv) (some e))
    else
      (.ok pv, { w.record (.createPV pv) none with volumes := w.volumes ++ [pv] })

/-- Store verb `PersistentVolumes().Delete(name, opts)`: removes the volume;
a not-found error when no volume of that name is stored. -/
def PersistentVolumes.Delete (env : Env) (name : String) (w : World) :
    Option GoError × World :=
  match env.fault (.deletePV name) with
  | some m => (some (Errorf m), w.record (.deletePV name) (some (Errorf m)))
  | none =>
    if w.volumes.any (fun v => v.Name == name) then
      (none, { w.record (.deletePV name) none with
               volumes := w.volumes.filter (fun v => !(v.Name == name)) })
    else
      let e : GoError := ⟨"persistentvolumes \"" ++ name ++ "\" not found", true, false⟩
      (some e, w.record (.deletePV name) (some e))

/-- Filesystem query `os.Stat(path)`, error part only: nil when the path
exists, an `IsNotExist` error when it does not. -/
def os.Stat (env : Env) (path : String) (w : World) : Option GoError × World :=
  match env.fault (.stat path) with
  | some m => (some (Errorf m), w.record (.stat path) (some (Errorf m)))
  | none =>
    if path ∈ w.paths then (none, w.record (.stat path) none)
    else
      let e : GoError := ⟨"stat " ++ path ++ ": no such file or directory", false, true⟩
      (some e, w.record (.stat path) (some e))

/-- Filesystem call `os.Mkdir(path, 0777)`. -/
def os.Mkdir (env : Env) (path : String) (w : World) : Option GoError × World :=
  match env.fault (.mkdir path) with
  | some m => (some (Errorf m), w.record (.mkdir path) (some (Errorf m)))
  | none =>
    if path ∈ w.paths then
      let e : GoError := Errorf ("mkdir " ++ path ++ ": file exists")
      (some e, w.record (.mkdir path) (some e))
    else (none, { w.record (.mkdir path) none with
                  paths := w.paths ++ [path], dirs := w.dirs ++ [path] })

/-- Path `q` is `path` itself or lies below it. -/
def isUnder (path q : String) : Bool :=
  q == path || (path.data ++ ['/']).isPrefixOf q.data

/-- Filesystem call `os.RemoveAll(path)`: removes the path and everything
below it; nil when the path does not exist. -/
def os.RemoveAll (env : Env) (path : String) (w : World) : Option GoError × World :=
  match env.fault (.removeAll path) with
  | some m => (some (Errorf m), w.record (.removeAll path) (some (Errorf m)))
  | none =>
    (none, { w.record (.removeAll path) none with
             paths := w.paths.filter (fun q => !(isUnder path q)),
             dirs := w.dirs.filter (fun q => !(isUnder path q)) })

/-! ## provisioner.go -/

/-- Configuration held by the Go `Provisioner` struct (the client is the `World`). -/
structure Provisioner where
  storageClass : String
  fsName : String
  clusterNamespace : String
  localPath : String
deriving DecidableEq, Repr

/-- Go `getPVNameForPVC`: `fmt.Sprintf("pvc-%s", pvc.UID)`. -/
def Provisioner.getPVNameForPVC (_p : Provisioner) (pvc : PersistentVolumeClaim) : String :=
  "pvc-" ++ pvc.UID

/-- Go `getLocalPathForPVC`. -/
def Provisioner.getLocalPathForPVC (p : Provisioner) (pvc : PersistentVolumeClaim) : String :=
  path.Join p.localPath (p.getPVNameForPVC pvc)

/-- Go `newPVforPVC`. -/
def Provisioner.newPVforPVC (env : Env) (p : Provisioner) (pvc : PersistentVolumeClaim) :
    Except GoError PersistentVolume :=
  match env.GetReference pvc with
  | .error err => .error (Errorf ("couldn't get reference to pvc, see: " ++ err.Error))
  | .ok claimRef =>
    .ok { Name := p.getPVNameForPVC pvc
          StorageClassName := p.storageClass
          AccessModes := pvc.AccessModes
          Capacity := [(ResourceStorage, pvc.Requests.get ResourceStorage)]
          ClaimRef := claimRef
          FlexVolume :=
            { Driver := "ceph.rook.io/rook"
              FSType := "ceph"
              Options := [("clusterNamespace", p.clusterNamespace),
                          ("fsName", p.fsName),
                          ("path", "/" ++ p.getPVNameForPVC pvc)] } }

/-- Go `createLocalPathForPVC`. -/
def Provisioner.createLocalPathForPVC (env : Env) (p : Provisioner)
    (pvc : PersistentVolumeClaim) (w : World) : Option GoError × World :=
  let localPath := p.getLocalPathForPVC pvc
  match os.Stat env localPath w with
  | (some err, w1) =>
    if err.notExist then
      match os.Mkdir env localPath w1 with
      | (some err2, w2) =>
        (some (Errorf ("couldn't create pvc folder at `" ++ localPath ++ "`, see: " ++ err2.Error)), w2)
      | (none, w2) => (none, w2)
    else (none, w1)
  | (none, w1) => (none, w1)

/-- Go `isPVAlreadyExistsError`. -/
def Provisioner.isPVAlreadyExistsError (_p : Provisioner) (pv : PersistentVolume)
    (err : Option GoError) : Bool :=
  let errMsg := "persistentvolumes \"" ++ pv.Name ++ "\" already exists"
  match err with
  | none => false
  | some e => strings.Contains e.Error errMsg

/-- Go `createPVforPVC`. -/
def Provisioner.createPVforPVC (env : Env) (p : Provisioner) (pvc : PersistentVolumeClaim)
    (w : World) : Except GoError PersistentVolume × World :=
  match p.newPVforPVC env pvc with
  | .error err => (.error (Errorf ("couldn't create pv, see: " ++ err.Error)), w)
  | .ok pv =>
    match PersistentVolumes.Create env pv w with
    | (.error err, w1) =>
      if p.isPVAlreadyExistsError pv (some err) then (.ok pv, w1)
      else (.error (Errorf ("couldn't deploy pv, see: " ++ err.Error)), w1)
    | (.ok newPV, w1) => (.ok newPV, w1)

/-- Go `addFinalizerToPVC`. -/
def Provisioner.addFinalizerToPVC (env : Env) (_p : Provisioner) (pvc : PersistentVolumeClaim)
    (w : World) : Except GoError PersistentVolumeClaim × World :=
  if pvc.Finalizers.length > 0 ∧ finalizerName ∈ pvc.Finalizers then (.ok pvc, w)
  else
    let pvc1 := { pvc with Finalizers := pvc.Finalizers ++ [finalizerName] }
    match PersistentVolumeClaims.Update env pvc1 w with
    | (.error err, w1) => (.error (Errorf ("couldn't update pvc, see: " ++ err.Error)), w1)
    | (.ok newPVC, w1) => (.ok newPVC, w1)

/-- Go `tryRemoveFinalizerFromPVC`. -/
def Provisioner.tryRemoveFinalizerFromPVC (env : Env) (_p : Provisioner)
    (pvc : PersistentVolumeClaim) (w : World) : Except GoError PersistentVolumeClaim × World :=
  let finalizers := pvc.Finalizers
  let pvc1 :=
    if finalizers.length = 1 ∧ finalizers.head? = some finalizerName then
      { pvc with Finalizers := [] }
    else if finalizers.length > 1 ∧ finalizers.head? = some finalizerName then
      { pvc with Finalizers := pvc.Finalizers.drop 1 }
    else pvc
  match PersistentVolumeClaims.Update env pvc1 w with
  | (.error err, w1) => (.error (Errorf ("couldn't update pvc, see: " ++ err.Error)), w1)
  | (.ok newPVC, w1) => (.ok newPVC, w1)

/-- Go `handleDeletion`. -/
def Provisioner.handleDeletion (env : Env) (p : Provisioner) (pvc : PersistentVolumeClaim)
    (w : World) : Option GoError × World :=
  let finalizers := pvc.Finalizers
  if finalizers.length > 0 ∧ finalizers.head? ≠ some finalizerName then (none, w)
  else
    let path := p.getLocalPathForPVC pvc
    match os.RemoveAll env path w with
    | (some err, w1) => (some (Errorf ("couldn't delete `" ++ path ++ "`, see: " ++ err.Error)), w1)
    | (none, w1) =>
      match PersistentVolumes.Delete env (p.getPVNameForPVC pvc) w1 with
      | (some err, w2) => (some (Errorf ("couldn't delete pv, see: " ++ err.Error)), w2)
      | (none, w2) =>
        match p.tryRemoveFinalizerFromPVC env pvc w2 with
        | (.error err, w3) =>
          (some (Errorf ("couldn't remove finalizer from pvc, see: " ++ err.Error)), w3)
        | (.ok _, w3) => (none, w3)

/-- Go `handleUnboundPVC`. -/
def Provisioner.handleUnboundPVC (env : Env) (p : Provisioner) (pvc : PersistentVolumeClaim)
    (w : World) : Option GoError × World :=
  match p.addFinalizerToPVC env pvc w with
  | (.error err, w1) => (some (Errorf ("couldn't append finalizer to pvc, see: " ++ err.Error)), w1)
  | (.ok pvc1, w1) =>
    match p.createLocalPathForPVC env pvc1 w1 with
    | (some err, w2) => (some (Errorf ("couldn't create localPath, see: " ++ err.Error)), w2)
    | (none, w2) =>
      match p.createPVforPVC env pvc1 w2 with
      | (.error err, w3) => (some (Errorf ("couldn't create pv for pvc, see: " ++ err.Error)), w3)
      | (.ok _, w3) => (none, w3)

/-- Go `Handle`.  The nil branch only logs a warning; the mismatch
branch returns nil. -/
def Provisioner.Handle (env : Env) (p : Provisioner) (pvc : PersistentVolumeClaim)
    (w : World) : Option GoError × World :=
  let ignored : Bool :=
    match pvc.StorageClassName with
    | none => false
    | some sc => sc != p.storageClass
  if ignored then (none, w)
  else if pvc.DeletionTimestamp ≠ none then
    match p.handleDeletion env pvc w with
    | (some err, w1) => (some (Errorf ("couldn't delete pvc, see: " ++ err.Error)), w1)
    | (none, w1) => (none, w1)
  else if pvc.Phase ≠ ClaimPending then (none, w)
  else p.handleUnboundPVC env pvc w

/-! ## controller.go -/

/-- Library function `cache.SplitMetaNamespaceKey`: a key is `name` or `namespace/name`. -/
def SplitMetaNamespaceKey (key : String) : Except GoError (String × String) :=
  match splitSlash key.data with
  | [name] => .ok ("", String.mk name)
  | [ns, name] => .ok (String.mk ns, String.mk name)
  | _ => .error (Errorf ("unexpected key format: \"" ++ key ++ "\""))

/-- Calls `sync` makes on the controller's collaborators. -/
inductive SyncCall where
  | Get (ns name : String)
  | handler (pvc : PersistentVolumeClaim)
deriving DecidableEq, Repr

/-- Fields of the Go `Controller` struct used by `sync`; `σ` is whatever
state the handler acts on. -/
structure Controller (σ : Type) where
  pvcLister : String → String → Except GoError PersistentVolumeClaim
  handler : PersistentVolumeClaim → σ → Option GoError × σ

/-- Method `DeepCopy` on a claim: a value equal to the original. -/
def PersistentVolumeClaim.DeepCopy (pvc : PersistentVolumeClaim) : PersistentVolumeClaim := pvc

/-- Go `Controller.sync`; returns the error, the calls made in order and the state
left by the handler. -/
def Controller.sync {σ : Type} (cc : Controller σ) (key : String) (s : σ) :
    Option GoError × List SyncCall × σ :=
  match SplitMetaNamespaceKey key with
  | .error _ => (none, [], s)
  | .ok (ns, name) =>
    match cc.pvcLister ns name with
    | .error err =>
      if err.notFound then (none, [.Get ns name], s)
      else (some err, [.Get ns name], s)
    | .ok pvc =>
      let pvc := pvc.DeepCopy
      match cc.handler pvc s with
      | (some err, s1) =>
        (some (Errorf ("couldn't sync pvc `" ++ name ++ "` in namespace `" ++ ns ++ "`, see: "
          ++ err.Error)), [.Get ns name, .handler pvc], s1)
      | (none, s1) => (none, [.Get ns name, .handler pvc], s1)

/-! ## Concrete inputs used by the examples -/

/-- Surroundings in which nothing fails for outside reasons. -/
def env0 : Env :=
  ⟨fun _ => none, fun pvc => .ok ⟨"PersistentVolumeClaim", "v1", pvc.Namespace, pvc.Name, pvc.UID⟩⟩

/-- Provisioner configured for storage class `rook-cephfs` under `/storage`. -/
def p0 : Provisioner := ⟨"rook-cephfs", "myfs", "rook-ceph", "/storage"⟩

/-- Pending claim of the configured class without finalizers. -/
def pvcA : PersistentVolumeClaim :=
  ⟨"data", "default", "u1", [], none, some "rook-cephfs", ["ReadWriteMany"], [("storage", 5)], "Pending"⟩

/-- World holding only the claim `pvcA`. -/
def wA : World := ⟨[pvcA], [], [], [], []⟩

/-- Pending claim whose storage class is unset. -/
def pvcNil : PersistentVolumeClaim :=
  ⟨"scratch", "default", "u2", [], none, none, ["ReadWriteOnce"], [("storage", 1)], "Pending"⟩

/-- World holding only the claim `pvcNil`. -/
def wNil : World := ⟨[pvcNil], [], [], [], []⟩

/-- Claim `pvcA` after binding, now being deleted: the controller's finalizer is the only one. -/
def pvcTerm : PersistentVolumeClaim :=
  ⟨"data", "default", "u1", [finalizerName], some 1700000000, some "rook-cephfs",
    ["ReadWriteMany"], [("storage", 5)], "Bound"⟩

/-- Volume record that binding creates for `pvcA`. -/
def pvA : PersistentVolume :=
  { Name := "pvc-u1"
    StorageClassName := "rook-cephfs"
    AccessModes := ["ReadWriteMany"]
    Capacity := [("storage", 5)]
    ClaimRef := ⟨"PersistentVolumeClaim", "v1", "default", "data", "u1"⟩
    FlexVolume := ⟨"ceph.rook.io/rook", "ceph",
      [("clusterNamespace", "rook-ceph"), ("fsName", "myfs"), ("path", "/pvc-u1")]⟩ }

/-- World in which `pvcTerm` still has its directory (with a file in it) and its volume. -/
def wBound : World :=
  ⟨[pvcTerm], [pvA], ["/storage/pvc-u1", "/storage/pvc-u1/data.txt", "/storage/pvc-u9"],
    ["/storage/pvc-u1", "/storage/pvc-u9"], []⟩

/-- World in which the directory and the volume of `pvcTerm` are already gone
while the claim still carries the finalizer. -/
def wGone : World := ⟨[pvcTerm], [], ["/storage/pvc-u9"], ["/storage/pvc-u9"], []⟩

/-- Terminating claim of the configured class with an empty finalizer list. -/
def pvcBare : PersistentVolumeClaim :=
  ⟨"data", "default", "u1", [], some 1700000000, some "rook-cephfs",
    ["ReadWriteMany"], [("storage", 5)], "Bound"⟩

/-- World in which `pvcBare` has a directory and a volume. -/
def wBare : World := ⟨[pvcBare], [pvA], ["/storage/pvc-u1"], ["/storage/pvc-u1"], []⟩

/-- Terminating claim on which another controller's finalizer comes first. -/
def pvcOther : PersistentVolumeClaim :=
  ⟨"data", "default", "u1", ["kubernetes.io/pvc-protection", finalizerName], some 1700000000,
    some "rook-cephfs", ["ReadWriteMany"], [("storage", 5)], "Bound"⟩

/-- World in which `pvcOther` has a directory and a volume. -/
def wOther : World := ⟨[pvcOther], [pvA], ["/storage/pvc-u1"], ["/storage/pvc-u1"], []⟩

/-- Lister answering from a fixed list of cached claims. -/
def listerOf (cache : List PersistentVolumeClaim) (ns name : String) :
    Except GoError PersistentVolumeClaim :=
  match cache.find? (fun c => c.Namespace == ns && c.Name == name) with
  | some c => .ok c
  | none => .error ⟨"persistentvolumeclaims \"" ++ name ++ "\" not found", true, false⟩

/-- Controller wired as in `main.go`: the handler is `Provisioner.Handle`. -/
def cc0 : Controller World := ⟨listerOf [pvcA], p0.Handle env0⟩

/-- Claim `pvcA` as the bind sequence stores it: the finalizer appended. -/
def pvcA1 : PersistentVolumeClaim :=
  ⟨"data", "default", "u1", [finalizerName], none, some "rook-cephfs", ["ReadWriteMany"],
    [("storage", 5)], "Pending"⟩

/-- Surroundings in which no call fails but no claim reference can be built:
`ref.GetReference` answers with its `ErrNoSelfLink`. -/
def envNoRef : Env :=
  ⟨fun _ => none, fun _ => .error (Errorf "selfLink was empty, can't make reference")⟩

/-- World holding the claim `pvcA` in which a regular file already sits at
the path of its directory. -/
def wFile : World := ⟨[pvcA], [], ["/storage", "/storage/pvc-u1"], ["/storage"], []⟩

/-! ## Facts about the store model -/

/-- After every stored claim with the key of `k` is replaced by `n`, a claim
with that key being stored, the lookup under that key finds `n`. -/
theorem find_after_update (l : List PersistentVolumeClaim) (k n : PersistentVolumeClaim)
    (hns : n.Namespace = k.Namespace) (hname : n.Name = k.Name)
    (h : l.any (sameKey k) = true) :
    (l.map (fun c => if sameKey k c then n else c)).find?
      (fun c => c.Namespace == k.Namespace && c.Name == k.Name) = some n := by
  induction l with
  | nil => simp at h
  | cons c l ih =>
    by_cases hc : sameKey k c = true
    · simp [hc, hns, hname]
    · have hc2 : (c.Namespace == k.Namespace && c.Name == k.Name) = false := by
        simp only [sameKey, Bool.not_eq_true] at hc
        simp only [Bool.and_eq_false_iff, beq_eq_false_iff_ne, ne_eq] at hc ⊢
        rcases hc with hc | hc
        · exact Or.inl (fun e => hc e.symm)
        · exact Or.inr (fun e => hc e.symm)
      have hrest : l.any (sameKey k) = true := by
        simp only [List.any_cons, Bool.or_eq_true] at h
        rcases h with h | h
        · exact absurd h hc
        · exact h
      simp only [List.map_cons, hc, if_false]
      rw [List.find?_cons_of_neg _ (by simp [hc2])]
      exact ih hrest

/-- After `pv` is appended to volumes none of which has its name, the lookup
by that name finds `pv`. -/
theorem find_after_create (l : List PersistentVolume) (pv : PersistentVolume)
    (h : l.any (fun v => v.Name == pv.Name) = false) :
    (l ++ [pv]).find? (fun v => v.Name == pv.Name) = some pv := by
  induction l with
  | nil => simp
  | cons c l ih =>
    simp only [List.any_cons, Bool.or_eq_false_iff] at h
    simp only [List.cons_append]
    rw [List.find?_cons_of_neg _ (by simp [h.1])]
    exact ih h.2

/-- Every list starts with itself. -/
theorem isPrefixOf_self (l : List Char) : l.isPrefixOf l = true := by
  induction l with
  | nil => rfl
  | cons c l ih => simp [List.isPrefixOf, ih]

/-- Every string contains itself. -/
theorem Contains_self (s : String) : strings.Contains s s = true := by
  unfold strings.Contains
  cases h : s.data with
  | nil => rfl
  | cons c l => simp [indexFrom, isPrefixOf_self]

/-- Events between two worlds, read off the later log. -/
theorem events_of_log (w w1 : World) (evs : List Event) (h : w1.log = w.log ++ evs) :
    events w w1 = evs := by
  simp [events, h]

/-- Name, capacity and driver options of a volume built by `newPVforPVC`. -/
theorem newPV_fields (env : Env) (p : Provisioner) (pvc : PersistentVolumeClaim)
    (pv : PersistentVolume) (h : p.newPVforPVC env pvc = .ok pv) :
    pv.Name = "pvc-" ++ pvc.UID ∧
    pv.Capacity = [(ResourceStorage, pvc.Requests.get ResourceStorage)] ∧
    pv.FlexVolume.Options =
      [("clusterNamespace", p.clusterNamespace), ("fsName", p.fsName),
       ("path", "/" ++ ("pvc-" ++ pvc.UID))] := by
  unfold Provisioner.newPVforPVC at h
  cases hr : env.GetReference pvc with
  | error e => simp [hr] at h
  | ok r =>
    simp only [hr, Except.ok.injEq] at h
    subst h
    exact ⟨rfl, rfl, rfl⟩

/-! ## Outcomes of the single steps -/

/-- Outcomes of the claim update: an error with the store untouched, or the
claim replaced. -/
theorem Update_cases (env : Env) (x : PersistentVolumeClaim) (w : World) :
    (∃ e w1, PersistentVolumeClaims.Update env x w = (.error e, w1) ∧
      w1.claims = w.claims ∧ w1.volumes = w.volumes ∧ w1.paths = w.paths ∧
      w1.log = w.log ++ [⟨.updatePVC x, some e⟩]) ∨
    (∃ w1, PersistentVolumeClaims.Update env x w = (.ok x, w1) ∧
      env.fault (.updatePVC x) = none ∧ w.claims.any (sameKey x) = true ∧
      w1.claims = w.claims.map (fun c => if sameKey x c then x else c) ∧
      w1.volumes = w.volumes ∧ w1.paths = w.paths ∧
      w1.log = w.log ++ [⟨.updatePVC x, none⟩]) := by
  cases hf : env.fault (.updatePVC x) with
  | some m =>
    left
    exact ⟨Errorf m, w.record (.updatePVC x) (some (Errorf m)),
      by simp [PersistentVolumeClaims.Update, hf], rfl, rfl, rfl, rfl⟩
  | none =>
    by_cases hany : w.claims.any (sameKey x) = true
    · right
      exact ⟨{ w.record (.updatePVC x) none with
          claims := w.claims.map (fun c => if sameKey x c then x else c) },
        by simp only [PersistentVolumeClaims.Update, hf, hany, if_true], rfl, hany,
        rfl, rfl, rfl, rfl⟩
    · left
      exact ⟨⟨"persistentvolumeclaims \"" ++ x.Name ++ "\" not found", true, false⟩,
        w.record (.updatePVC x)
          (some ⟨"persistentvolumeclaims \"" ++ x.Name ++ "\" not found", true, false⟩),
        by simp [PersistentVolumeClaims.Update, hf, hany], rfl, rfl, rfl, rfl⟩

/-- Outcomes of the volume delete: an error with the store untouched, or the
volume removed. -/
theorem Delete_cases (env : Env) (name : String) (w : World) :
    (∃ e w1, PersistentVolumes.Delete env name w = (some e, w1) ∧
      w1.claims = w.claims ∧ w1.volumes = w.volumes ∧ w1.paths = w.paths ∧
      w1.log = w.log ++ [⟨.deletePV name, some e⟩]) ∨
    (∃ w1, PersistentVolumes.Delete env name w = (none, w1) ∧
      w1.claims = w.claims ∧ w1.volumes = w.volumes.filter (fun v => !(v.Name == name)) ∧
      w1.paths = w.paths ∧ w1.log = w.log ++ [⟨.deletePV name, none⟩]) := by
  cases hf : env.fault (.deletePV name) with
  | some m =>
    left
    exact ⟨Errorf m, w.record (.deletePV name) (some (Errorf m)),
      by simp [PersistentVolumes.Delete, hf], rfl, rfl, rfl, rfl⟩
  | none =>
    by_cases hany : w.volumes.any (fun v => v.Name == name) = true
    · right
      exact ⟨{ w.record (.deletePV name) none with
          volumes := w.volumes.filter (fun v => !(v.Name == name)) },
        by simp only [PersistentVolumes.Delete, hf, hany, if_true], rfl, rfl, rfl, rfl⟩
    · left
      exact ⟨⟨"persistentvolumes \"" ++ name ++ "\" not found", true, false⟩,
        w.record (.deletePV name)
          (some ⟨"persistentvolumes \"" ++ name ++ "\" not found", true, false⟩),
        by simp [PersistentVolumes.Delete, hf, hany], rfl, rfl, rfl, rfl⟩

/-- Outcomes of `addFinalizerToPVC`: no call when the token is present, a
failed update, or the claim stored with the token appended. -/
theorem addFinalizer_cases (env : Env) (p : Provisioner) (pvc : PersistentVolumeClaim) (w : World) :
    (finalizerName ∈ pvc.Finalizers ∧ p.addFinalizerToPVC env pvc w = (.ok pvc, w)) ∨
    (finalizerName ∉ pvc.Finalizers ∧ ∃ e w1,
      p.addFinalizerToPVC env pvc w
        = (.error (Errorf ("couldn't update pvc, see: " ++ e.Error)), w1) ∧
      w1.claims = w.claims ∧ w1.volumes = w.volumes ∧ w1.paths = w.paths ∧
      w1.log = w.log ++
        [⟨.updatePVC { pvc with Finalizers := pvc.Finalizers ++ [finalizerName] }, some e⟩]) ∨
    (finalizerName ∉ pvc.Finalizers ∧ ∃ w1,
      p.addFinalizerToPVC env pvc w
        = (.ok { pvc with Finalizers := pvc.Finalizers ++ [finalizerName] }, w1) ∧
      w.claims.any (sameKey pvc) = true ∧
      w1.claims = w.claims.map (fun c =>
        if sameKey pvc c then { pvc with Finalizers := pvc.Finalizers ++ [finalizerName] } else c) ∧
      w1.volumes = w.volumes ∧ w1.paths = w.paths ∧
      w1.log = w.log ++
        [⟨.updatePVC { pvc with Finalizers := pvc.Finalizers ++ [finalizerName] }, none⟩]) := by
  by_cases hin : finalizerName ∈ pvc.Finalizers
  · left
    have hlen : pvc.Finalizers.length > 0 := List.length_pos_of_mem hin
    exact ⟨hin, by simp [Provisioner.addFinalizerToPVC, hin, hlen]⟩
  · right
    cases hf : env.fault (.updatePVC { pvc with Finalizers := pvc.Finalizers ++ [finalizerName] }) with
    | some m =>
      left
      refine ⟨hin, Errorf m, w.record (.updatePVC
        { pvc with Finalizers := pvc.Finalizers ++ [finalizerName] }) (some (Errorf m)),
        ?_, rfl, rfl, rfl, rfl⟩
      simp [Provisioner.addFinalizerToPVC, PersistentVolumeClaims.Update, hin, hf]
    | none =>
      by_cases hany : w.claims.any (sameKey pvc) = true
      · right
        refine ⟨hin, { w.record (.updatePVC
          { pvc with Finalizers := pvc.Finalizers ++ [finalizerName] }) none with
            claims := w.claims.map (fun c => if sameKey pvc c then
              { pvc with Finalizers := pvc.Finalizers ++ [finalizerName] } else c) },
          ?_, hany, rfl, rfl, rfl, rfl⟩
        have hany2 : w.claims.any
            (sameKey { pvc with Finalizers := pvc.Finalizers ++ [finalizerName] }) = true := hany
        simp only [Provisioner.addFinalizerToPVC, PersistentVolumeClaims.Update, hin, hf, hany2,
          and_false, if_false, if_true]
        rfl
      · left
        have hany2 : ¬ w.claims.any
            (sameKey { pvc with Finalizers := pvc.Finalizers ++ [finalizerName] }) = true := hany
        refine ⟨hin, ⟨"persistentvolumeclaims \"" ++ pvc.Name ++ "\" not found", true, false⟩,
          w.record (.updatePVC { pvc with Finalizers := pvc.Finalizers ++ [finalizerName] })
            (some ⟨"persistentvolumeclaims \"" ++ pvc.Name ++ "\" not found", true, false⟩),
          ?_, rfl, rfl, rfl, rfl⟩
        simp [Provisioner.addFinalizerToPVC, PersistentVolumeClaims.Update, hin, hf, hany2]

/-- Outcomes of `createLocalPathForPVC`: the query fails for another reason
than absence, the path exists, the directory creation fails, or the directory
is created. -/
theorem createLocalPath_cases (env : Env) (p : Provisioner) (pvc : PersistentVolumeClaim)
    (w : World) :
    (∃ m w1, env.fault (.stat (p.getLocalPathForPVC pvc)) = some m ∧
      p.createLocalPathForPVC env pvc w = (none, w1) ∧
      w1.claims = w.claims ∧ w1.volumes = w.volumes ∧ w1.paths = w.paths ∧
      w1.log = w.log ++ [⟨.stat (p.getLocalPathForPVC pvc), some (Errorf m)⟩]) ∨
    (env.fault (.stat (p.getLocalPathForPVC pvc)) = none ∧ p.getLocalPathForPVC pvc ∈ w.paths ∧
      ∃ w1, p.createLocalPathForPVC env pvc w = (none, w1) ∧
      w1.claims = w.claims ∧ w1.volumes = w.volumes ∧ w1.paths = w.paths ∧
      w1.log = w.log ++ [⟨.stat (p.getLocalPathForPVC pvc), none⟩]) ∨
    (env.fault (.stat (p.getLocalPathForPVC pvc)) = none ∧ p.getLocalPathForPVC pvc ∉ w.paths ∧
      ∃ e0 e e1 w1, e0.notExist = true ∧ p.createLocalPathForPVC env pvc w = (some e1, w1) ∧
      w1.claims = w.claims ∧ w1.volumes = w.volumes ∧ w1.paths = w.paths ∧
      w1.log = w.log ++ [⟨.stat (p.getLocalPathForPVC pvc), some e0⟩,
                         ⟨.mkdir (p.getLocalPathForPVC pvc), some e⟩]) ∨
    (env.fault (.stat (p.getLocalPathForPVC pvc)) = none ∧ p.getLocalPathForPVC pvc ∉ w.paths ∧
      ∃ e0 w1, e0.notExist = true ∧ p.createLocalPathForPVC env pvc w = (none, w1) ∧
      w1.claims = w.claims ∧ w1.volumes = w.volumes ∧
      w1.paths = w.paths ++ [p.getLocalPathForPVC pvc] ∧
      w1.log = w.log ++ [⟨.stat (p.getLocalPathForPVC pvc), some e0⟩,
                         ⟨.mkdir (p.getLocalPathForPVC pvc), none⟩]) := by
  cases hf : env.fault (.stat (p.getLocalPathForPVC pvc)) with
  | some m =>
    left
    exact ⟨m, w.record (.stat (p.getLocalPathForPVC pvc)) (some (Errorf m)), rfl,
      by simp [Provisioner.createLocalPathForPVC, os.Stat, hf, Errorf], rfl, rfl, rfl, rfl⟩
  | none =>
    right
    by_cases hp : p.getLocalPathForPVC pvc ∈ w.paths
    · left
      exact ⟨rfl, hp, w.record (.stat (p.getLocalPathForPVC pvc)) none,
        by simp [Provisioner.createLocalPathForPVC, os.Stat, hf, hp], rfl, rfl, rfl, rfl⟩
    · right
      cases hm : env.fault (.mkdir (p.getLocalPathForPVC pvc)) with
      | some m =>
        left
        refine ⟨rfl, hp, ⟨"stat " ++ p.getLocalPathForPVC pvc ++ ": no such file or directory",
          false, true⟩, Errorf m, Errorf ("couldn't create pvc folder at `" ++ p.getLocalPathForPVC pvc
            ++ "`, see: " ++ m), (w.record (.stat (p.getLocalPathForPVC pvc))
            (some ⟨"stat " ++ p.getLocalPathForPVC pvc ++ ": no such file or directory",
              false, true⟩)).record (.mkdir (p.getLocalPathForPVC pvc)) (some (Errorf m)),
          rfl, ?_, rfl, rfl, rfl, ?_⟩
        · simp [Provisioner.createLocalPathForPVC, os.Stat, os.Mkdir, hf, hp, hm, World.record]
          rfl
        · simp [World.record]
      | none =>
        right
        refine ⟨rfl, hp, ⟨"stat " ++ p.getLocalPathForPVC pvc ++ ": no such file or directory",
          false, true⟩, { (w.record (.stat (p.getLocalPathForPVC pvc))
            (some ⟨"stat " ++ p.getLocalPathForPVC pvc ++ ": no such file or directory",
              false, true⟩)).record (.mkdir (p.getLocalPathForPVC pvc)) none with
            paths := w.paths ++ [p.getLocalPathForPVC pvc],
            dirs := w.dirs ++ [p.getLocalPathForPVC pvc] },
          rfl, ?_, rfl, rfl, rfl, ?_⟩
        · simp [Provisioner.createLocalPathForPVC, os.Stat, os.Mkdir, hf, hp, hm, World.record]
        · simp [World.record]

/-- Outcomes of `createPVforPVC`: no reference, a create error that is
returned, a create error classified as already existing, or the volume
stored. -/
theorem createPV_cases (env : Env) (p : Provisioner) (pvc : PersistentVolumeClaim) (w : World) :
    (∃ e e1, env.GetReference pvc = .error e ∧ p.createPVforPVC env pvc w = (.error e1, w)) ∨
    (∃ pv e e1 w1, p.newPVforPVC env pvc = .ok pv ∧
      p.createPVforPVC env pvc w = (.error e1, w1) ∧
      w1.claims = w.claims ∧ w1.volumes = w.volumes ∧ w1.paths = w.paths ∧
      w1.log = w.log ++ [⟨.createPV pv, some e⟩]) ∨
    (∃ pv e w1, p.newPVforPVC env pvc = .ok pv ∧
      p.isPVAlreadyExistsError pv (some e) = true ∧
      (env.fault (.createPV pv) = some e.msg ∨
        (env.fault (.createPV pv) = none ∧ w.volumes.any (fun v => v.Name == pv.Name) = true)) ∧
      p.createPVforPVC env pvc w = (.ok pv, w1) ∧
      w1.claims = w.claims ∧ w1.volumes = w.volumes ∧ w1.paths = w.paths ∧
      w1.log = w.log ++ [⟨.createPV pv, some e⟩]) ∨
    (∃ pv w1, p.newPVforPVC env pvc = .ok pv ∧
      env.fault (.createPV pv) = none ∧ w.volumes.any (fun v => v.Name == pv.Name) = false ∧
      p.createPVforPVC env pvc w = (.ok pv, w1) ∧
      w1.claims = w.claims ∧ w1.volumes = w.volumes ++ [pv] ∧ w1.paths = w.paths ∧
      w1.log = w.log ++ [⟨.createPV pv, none⟩]) := by
  cases hn : p.newPVforPVC env pvc with
  | error e0 =>
    left
    unfold Provisioner.newPVforPVC at hn
    cases hr : env.GetReference pvc with
    | ok r => simp [hr] at hn
    | error e =>
      refine ⟨e, Errorf ("couldn't create pv, see: " ++
        (Errorf ("couldn't get reference to pvc, see: " ++ e.Error)).Error), rfl, ?_⟩
      simp [Provisioner.createPVforPVC, Provisioner.newPVforPVC, hr]
  | ok pv =>
    right
    cases hf : env.fault (.createPV pv) with
    | some m =>
      by_cases hx : p.isPVAlreadyExistsError pv (some (Errorf m)) = true
      · right; left
        refine ⟨pv, Errorf m, w.record (.createPV pv) (some (Errorf m)), rfl, hx, Or.inl hf,
          ?_, rfl, rfl, rfl, rfl⟩
        simp [Provisioner.createPVforPVC, hn, PersistentVolumes.Create, hf, hx]
      · left
        refine ⟨pv, Errorf m, Errorf ("couldn't deploy pv, see: " ++ (Errorf m).Error),
          w.record (.createPV pv) (some (Errorf m)), rfl, ?_, rfl, rfl, rfl, rfl⟩
        simp [Provisioner.createPVforPVC, hn, PersistentVolumes.Create, hf, hx]
    | none =>
      right
      by_cases hany : w.volumes.any (fun v => v.Name == pv.Name) = true
      · left
        have hx : p.isPVAlreadyExistsError pv
            (some (Errorf ("persistentvolumes \"" ++ pv.Name ++ "\" already exists"))) = true := by
          simp [Provisioner.isPVAlreadyExistsError, GoError.Error, Errorf, Contains_self]
        refine ⟨pv, Errorf ("persistentvolumes \"" ++ pv.Name ++ "\" already exists"),
          w.record (.createPV pv)
            (some (Errorf ("persistentvolumes \"" ++ pv.Name ++ "\" already exists"))),
          rfl, hx, Or.inr ⟨hf, hany⟩, ?_, rfl, rfl, rfl, rfl⟩
        simp only [Provisioner.createPVforPVC, hn, PersistentVolumes.Create, hf, hany, if_true, hx]
      · right
        simp only [Bool.not_eq_true] at hany
        refine ⟨pv, { w.record (.createPV pv) none with volumes := w.volumes ++ [pv] }, rfl, hf,
          hany, ?_, rfl, rfl, rfl, rfl⟩
        simp [Provisioner.createPVforPVC, hn, PersistentVolumes.Create, hf, hany]

/-- Outcomes of `tryRemoveFinalizerFromPVC`: the claim `x` sent to the store
has the leading token dropped; the update fails or `x` is stored. -/
theorem tryRemove_cases (env : Env) (p : Provisioner) (pvc : PersistentVolumeClaim) (w : World) :
    ∃ x : PersistentVolumeClaim, x.Namespace = pvc.Namespace ∧ x.Name = pvc.Name ∧
      (∀ rest, pvc.Finalizers = finalizerName :: rest → x.Finalizers = rest) ∧
      ((∃ e e1 w1, p.tryRemoveFinalizerFromPVC env pvc w = (.error e1, w1) ∧
        w1.claims = w.claims ∧ w1.volumes = w.volumes ∧ w1.paths = w.paths ∧
        w1.log = w.log ++ [⟨.updatePVC x, some e⟩]) ∨
      (∃ w1, p.tryRemoveFinalizerFromPVC env pvc w = (.ok x, w1) ∧
        w.claims.any (sameKey pvc) = true ∧
        w1.claims = w.claims.map (fun c => if sameKey pvc c then x else c) ∧
        w1.volumes = w.volumes ∧ w1.paths = w.paths ∧
        w1.log = w.log ++ [⟨.updatePVC x, none⟩])) := by
  obtain ⟨x, hx⟩ : ∃ x : PersistentVolumeClaim, x =
      (if pvc.Finalizers.length = 1 ∧ pvc.Finalizers.head? = some finalizerName then
        { pvc with Finalizers := [] }
      else if pvc.Finalizers.length > 1 ∧ pvc.Finalizers.head? = some finalizerName then
        { pvc with Finalizers := pvc.Finalizers.drop 1 }
      else pvc) := ⟨_, rfl⟩
  have hdef : p.tryRemoveFinalizerFromPVC env pvc w =
      (match PersistentVolumeClaims.Update env x w with
        | (.error err, w1) => (.error (Errorf ("couldn't update pvc, see: " ++ err.Error)), w1)
        | (.ok newPVC, w1) => (.ok newPVC, w1)) := by
    rw [hx]
    rfl
  have hns : x.Namespace = pvc.Namespace := by
    rw [hx]; split_ifs <;> rfl
  have hname : x.Name = pvc.Name := by
    rw [hx]; split_ifs <;> rfl
  have hkey : sameKey x = sameKey pvc := by
    funext c
    simp [sameKey, hns, hname]
  refine ⟨x, hns, hname, ?_, ?_⟩
  · intro rest hrest
    rw [hx]
    cases rest with
    | nil => simp [hrest]
    | cons a rest => simp [hrest]
  · rcases Update_cases env x w with ⟨e, w1, h, c1, v1, p1, l1⟩ | ⟨w1, h, _, hany, c1, v1, p1, l1⟩
    · left
      exact ⟨e, Errorf ("couldn't update pvc, see: " ++ e.Error), w1, by rw [hdef, h],
        c1, v1, p1, l1⟩
    · right
      rw [hkey] at hany c1
      exact ⟨w1, by rw [hdef, h], hany, c1, v1, p1, l1⟩

/-- Outcomes of `handleDeletion`: skipped by the guard, or stopped at the
first failing call, or all three calls done. -/
theorem handleDeletion_cases (env : Env) (p : Provisioner) (pvc : PersistentVolumeClaim)
    (w : World) :
    (pvc.Finalizers ≠ [] ∧ pvc.Finalizers.head? ≠ some finalizerName ∧
      p.handleDeletion env pvc w = (none, w)) ∨
    (∃ e e1 w1, p.handleDeletion env pvc w = (some e1, w1) ∧
      w1.claims = w.claims ∧ w1.volumes = w.volumes ∧ w1.paths = w.paths ∧
      w1.log = w.log ++ [⟨.removeAll (p.getLocalPathForPVC pvc), some e⟩]) ∨
    (∃ e e1 w1, p.handleDeletion env pvc w = (some e1, w1) ∧
      w1.claims = w.claims ∧ w1.volumes = w.volumes ∧
      w1.paths = w.paths.filter (fun q => !(isUnder (p.getLocalPathForPVC pvc) q)) ∧
      w1.log = w.log ++ [⟨.removeAll (p.getLocalPathForPVC pvc), none⟩,
                         ⟨.deletePV (p.getPVNameForPVC pvc), some e⟩]) ∨
    (∃ x e e1 w1, p.handleDeletion env pvc w = (some e1, w1) ∧
      w1.claims = w.claims ∧
      w1.volumes = w.volumes.filter (fun v => !(v.Name == p.getPVNameForPVC pvc)) ∧
      w1.paths = w.paths.filter (fun q => !(isUnder (p.getLocalPathForPVC pvc) q)) ∧
      w1.log = w.log ++ [⟨.removeAll (p.getLocalPathForPVC pvc), none⟩,
                         ⟨.deletePV (p.getPVNameForPVC pvc), none⟩,
                         ⟨.updatePVC x, some e⟩]) ∨
    (∃ x w1, p.handleDeletion env pvc w = (none, w1) ∧
      x.Namespace = pvc.Namespace ∧ x.Name = pvc.Name ∧
      (∀ rest, pvc.Finalizers = finalizerName :: rest → x.Finalizers = rest) ∧
      w.claims.any (sameKey pvc) = true ∧
      w1.claims = w.claims.map (fun c => if sameKey pvc c then x else c) ∧
      w1.volumes = w.volumes.filter (fun v => !(v.Name == p.getPVNameForPVC pvc)) ∧
      w1.paths = w.paths.filter (fun q => !(isUnder (p.getLocalPathForPVC pvc) q)) ∧
      w1.log = w.log ++ [⟨.removeAll (p.getLocalPathForPVC pvc), none⟩,
                         ⟨.deletePV (p.getPVNameForPVC pvc), none⟩,
                         ⟨.updatePVC x, none⟩]) := by
  by_cases hg : pvc.Finalizers.length > 0 ∧ pvc.Finalizers.head? ≠ some finalizerName
  · left
    exact ⟨List.length_pos.mp hg.1, hg.2, by unfold Provisioner.handleDeletion; simp [hg.1, hg.2]⟩
  · right
    cases hfr : env.fault (.removeAll (p.getLocalPathForPVC pvc)) with
    | some m =>
      left
      refine ⟨Errorf m, Errorf ("couldn't delete `" ++ p.getLocalPathForPVC pvc ++ "`, see: "
        ++ (Errorf m).Error), w.record (.removeAll (p.getLocalPathForPVC pvc)) (some (Errorf m)),
        ?_, rfl, rfl, rfl, rfl⟩
      simp only [Provisioner.handleDeletion, hg, if_false, os.RemoveAll, hfr]
    | none =>
      right
      have hrm : os.RemoveAll env (p.getLocalPathForPVC pvc) w =
          (none, { w.record (.removeAll (p.getLocalPathForPVC pvc)) none with
            paths := w.paths.filter (fun q => !(isUnder (p.getLocalPathForPVC pvc) q)),
            dirs := w.dirs.filter (fun q => !(isUnder (p.getLocalPathForPVC pvc) q)) }) := by
        simp only [os.RemoveAll, hfr]
      rcases Delete_cases env (p.getPVNameForPVC pvc)
          { w.record (.removeAll (p.getLocalPathForPVC pvc)) none with
            paths := w.paths.filter (fun q => !(isUnder (p.getLocalPathForPVC pvc) q)),
            dirs := w.dirs.filter (fun q => !(isUnder (p.getLocalPathForPVC pvc) q)) } with
        ⟨e, w2, h2, c2, v2, p2, l2⟩ | ⟨w2, h2, c2, v2, p2, l2⟩
      · left
        refine ⟨e, Errorf ("couldn't delete pv, see: " ++ e.Error), w2, ?_, c2, v2, p2, ?_⟩
        · simp only [Provisioner.handleDeletion, hg, if_false, hrm, h2]
        · rw [l2]; simp [World.record]
      · right
        obtain ⟨x, hns, hname, hfin, hcases⟩ := tryRemove_cases env p pvc w2
        rcases hcases with ⟨e, e1, w3, h3, c3, v3, p3, l3⟩ | ⟨w3, h3, hany, c3, v3, p3, l3⟩
        · left
          refine ⟨x, e, Errorf ("couldn't remove finalizer from pvc, see: " ++ e1.Error), w3, ?_,
            by rw [c3, c2]; rfl, by rw [v3, v2]; rfl, by rw [p3, p2], ?_⟩
          · simp only [Provisioner.handleDeletion, hg, if_false, hrm, h2, h3]
          · rw [l3, l2]; simp [World.record]
        · right
          rw [c2] at hany c3
          refine ⟨x, w3, ?_, hns, hname, hfin, hany, c3, by rw [v3, v2]; rfl, by rw [p3, p2], ?_⟩
          · simp only [Provisioner.handleDeletion, hg, if_false, hrm, h2, h3]
          · rw [l3, l2]; simp [World.record]

/-! ## Dispatch in `Handle` -/

/-- A pending claim without deletion timestamp whose class is the configured
one, or unset, goes to the bind sequence. -/
theorem Handle_bind_dispatch (env : Env) (p : Provisioner) (pvc : PersistentVolumeClaim) (w : World)
    (hsc : pvc.StorageClassName = some p.storageClass ∨ pvc.StorageClassName = none)
    (hph : pvc.Phase = ClaimPending) (hdel : pvc.DeletionTimestamp = none) :
    p.Handle env pvc w = p.handleUnboundPVC env pvc w := by
  unfold Provisioner.Handle
  rcases hsc with hsc | hsc <;> simp [hsc, hdel, hph]

/-- A terminating claim whose class is the configured one, or unset, goes to
the cleanup sequence. -/
theorem Handle_delete_dispatch (env : Env) (p : Provisioner) (pvc : PersistentVolumeClaim)
    (w : World)
    (hsc : pvc.StorageClassName = some p.storageClass ∨ pvc.StorageClassName = none)
    (hdel : pvc.DeletionTimestamp ≠ none) :
    (p.Handle env pvc w).2 = (p.handleDeletion env pvc w).2 ∧
    ((p.Handle env pvc w).1 = none ↔ (p.handleDeletion env pvc w).1 = none) := by
  unfold Provisioner.Handle
  rcases hsc with hsc | hsc
  all_goals
    cases hd : p.handleDeletion env pvc w with
    | mk r w1 =>
      cases r with
      | none => simp [hsc, hdel, hd]
      | some e => simp [hsc, hdel, hd]

/-- C1, evaluated at a claim with unset storage class: `Handle` does not
ignore the claim but runs the whole bind sequence on it, updating the claim,
creating the directory and creating the volume record. -/
theorem Handle_nil_class_binds :
    pvcNil.StorageClassName = none ∧
    (p0.Handle env0 pvcNil wNil).1 = none ∧
    (events wNil (p0.Handle env0 pvcNil wNil).2).map (fun e => e.call.verb)
      = [Verb.updatePVC, Verb.stat, Verb.mkdir, Verb.createPV] ∧
    (p0.Handle env0 pvcNil wNil).2.paths = ["/storage/pvc-u2"] ∧
    (p0.Handle env0 pvcNil wNil).2.volumes.map (fun v => v.Name) = ["pvc-u2"] ∧
    (p0.Handle env0 pvcNil wNil).2.claims.map (fun c => c.Finalizers) = [[finalizerName]] := by
  decide

/-! ## Cleanup -/

/-- C2, evaluated at a terminating claim whose directory and volume record
are already gone: the not-found answer of the volume delete is returned as an
error and the finalizer stays on the claim. -/
theorem Handle_cleanup_rerun_fails :
    (p0.Handle env0 pvcTerm wGone).1 =
      some (Errorf "couldn't delete pvc, see: couldn't delete pv, see: persistentvolumes \"pvc-u1\" not found") ∧
    (events wGone (p0.Handle env0 pvcTerm wGone).2).map (fun e => (e.call.verb, e.err.map (fun x => x.notFound)))
      = [(Verb.removeAll, none), (Verb.deletePV, some true)] ∧
    (p0.Handle env0 pvcTerm wGone).2.claims = [pvcTerm] := by
  decide

/-- C3 as stated fails: a terminating claim of the configured class with an
empty finalizer list is cleaned up, its directory removed, its volume deleted
and the claim updated. -/
theorem Handle_empty_finalizers_cleans :
    pvcBare.DeletionTimestamp ≠ none ∧ pvcBare.StorageClassName = some p0.storageClass ∧
    pvcBare.Finalizers = [] ∧
    (events wBare (p0.Handle env0 pvcBare wBare).2).map (fun e => e.call)
      = [Call.removeAll "/storage/pvc-u1", Call.deletePV "pvc-u1", Call.updatePVC pvcBare] ∧
    (p0.Handle env0 pvcBare wBare).2.paths = [] ∧
    (p0.Handle env0 pvcBare wBare).2.volumes = [] := by
  decide

/-- C3 amended: for a terminating claim, `Handle` issues a call only if the
claim's finalizer list is empty or starts with the controller's token; and
for such a claim of the configured class cleanup is started: the first call
issued is the removal of the directory `Join(localPath, "pvc-" + uid)`.  So
cleanup is skipped exactly when the list is non-empty and starts with another
token. -/
theorem Handle_cleanup_guard (env : Env) (p : Provisioner) (pvc : PersistentVolumeClaim)
    (w : World) (hdel : pvc.DeletionTimestamp ≠ none) :
    (events w (p.Handle env pvc w).2 ≠ [] →
      pvc.Finalizers = [] ∨ pvc.Finalizers.head? = some finalizerName) ∧
    (pvc.StorageClassName = some p.storageClass →
      (pvc.Finalizers = [] ∨ pvc.Finalizers.head? = some finalizerName) →
      ∃ e, (events w (p.Handle env pvc w).2).head?
        = some ⟨.removeAll (path.Join p.localPath ("pvc-" ++ pvc.UID)), e⟩) := by
  refine ⟨?_, ?_⟩
  · intro hcall
    by_cases hne : pvc.Finalizers = []
    · exact Or.inl hne
    · by_cases hfirst : pvc.Finalizers.head? = some finalizerName
      · exact Or.inr hfirst
      · have hskip : p.Handle env pvc w = (none, w) := by
          have hlen : pvc.Finalizers.length > 0 := List.length_pos.mpr hne
          unfold Provisioner.Handle Provisioner.handleDeletion
          simp [hdel, hlen, hfirst]
        rw [hskip] at hcall
        exact absurd (by simp [events]) hcall
  · intro hsc hguard
    rw [(Handle_delete_dispatch env p pvc w (Or.inl hsc) hdel).1]
    have hpath : p.getLocalPathForPVC pvc = path.Join p.localPath ("pvc-" ++ pvc.UID) := rfl
    rcases handleDeletion_cases env p pvc w with
      ⟨hne, hhead, _⟩ | ⟨e, e1, w1, h, _, _, _, l⟩ | ⟨e, e1, w1, h, _, _, _, l⟩ |
      ⟨x, e, e1, w1, h, _, _, _, l⟩ | ⟨x, w1, h, _, _, _, _, _, _, _, l⟩
    · rcases hguard with hg | hg
      · exact absurd hg hne
      · exact absurd hg hhead
    · exact ⟨some e, by simp [h, events, l, hpath]⟩
    · exact ⟨none, by simp [h, events, l, hpath]⟩
    · exact ⟨none, by simp [h, events, l, hpath]⟩
    · exact ⟨none, by simp [h, events, l, hpath]⟩

/-- Witness for the amended C3: the terminating claim `pvcTerm`, whose list
starts with the token, and the claim `pvcBare`, whose list is empty. -/
theorem Handle_cleanup_guard_witness :
    (pvcTerm.Finalizers = [] ∨ pvcTerm.Finalizers.head? = some finalizerName) ∧
    (∃ e, (events wBound (p0.Handle env0 pvcTerm wBound).2).head?
      = some ⟨.removeAll (path.Join p0.localPath ("pvc-" ++ pvcTerm.UID)), e⟩) ∧
    (∃ e, (events wBare (p0.Handle env0 pvcBare wBare).2).head?
      = some ⟨.removeAll (path.Join p0.localPath ("pvc-" ++ pvcBare.UID)), e⟩) :=
  ⟨(Handle_cleanup_guard env0 p0 pvcTerm wBound (by decide)).1 (by decide),
   (Handle_cleanup_guard env0 p0 pvcTerm wBound (by decide)).2 (by decide) (by decide),
   (Handle_cleanup_guard env0 p0 pvcBare wBare (by decide)).2 (by decide) (by decide)⟩

/-- C4: a terminating claim whose finalizer list is non-empty and does not
start with the controller's token is skipped: `Handle` returns nil and the
world (stored claims, volumes, paths and call log) is unchanged. -/
theorem Handle_other_finalizer_first (env : Env) (p : Provisioner) (pvc : PersistentVolumeClaim)
    (w : World) (hdel : pvc.DeletionTimestamp ≠ none) (hne : pvc.Finalizers ≠ [])
    (hfirst : pvc.Finalizers.head? ≠ some finalizerName) :
    p.Handle env pvc w = (none, w) := by
  have hlen : pvc.Finalizers.length > 0 := List.length_pos.mpr hne
  unfold Provisioner.Handle Provisioner.handleDeletion
  simp [hdel, hlen, hfirst]

/-- Witness for C4 at a claim protected by `kubernetes.io/pvc-protection`. -/
theorem Handle_other_finalizer_first_witness :
    pvcOther.DeletionTimestamp ≠ none ∧ pvcOther.Finalizers ≠ [] ∧
    pvcOther.Finalizers.head? ≠ some finalizerName ∧
    p0.Handle env0 pvcOther wOther = (none, wOther) :=
  ⟨by decide, by decide, by decide,
    Handle_other_finalizer_first env0 p0 pvcOther wOther (by decide) (by decide) (by decide)⟩

/-- C7: for a terminating claim of the configured class whose finalizer
list is the controller's token followed by `rest`, when every call issued by
`Handle` succeeds, `Handle` returns nil after issuing the directory removal,
the volume delete and the claim update in that order; afterwards the path
`Join(localPath, "pvc-" + uid)` does not exist, no volume named
`"pvc-" + uid` is stored, and the stored claim's finalizer list is `rest`. -/
theorem Handle_scenario_B (env : Env) (p : Provisioner) (pvc : PersistentVolumeClaim) (w : World)
    (rest : List String)
    (hsc : pvc.StorageClassName = some p.storageClass)
    (hdel : pvc.DeletionTimestamp ≠ none)
    (hfin : pvc.Finalizers = finalizerName :: rest)
    (hok : ∀ ev ∈ events w (p.Handle env pvc w).2, ev.succeeded = true) :
    (p.Handle env pvc w).1 = none ∧
    (events w (p.Handle env pvc w).2).map (fun e => e.call.verb)
      = [Verb.removeAll, Verb.deletePV, Verb.updatePVC] ∧
    path.Join p.localPath ("pvc-" ++ pvc.UID) ∉ (p.Handle env pvc w).2.paths ∧
    (p.Handle env pvc w).2.getPV ("pvc-" ++ pvc.UID) = none ∧
    ((p.Handle env pvc w).2.getPVC pvc.Namespace pvc.Name).map (fun c => c.Finalizers)
      = some rest := by
  obtain ⟨hw, hres⟩ := Handle_delete_dispatch env p pvc w (Or.inl hsc) hdel
  rw [hres, hw]
  rw [hw] at hok
  rcases handleDeletion_cases env p pvc w with
    ⟨_, hhead, _⟩ | ⟨e, e1, w1, h, _, _, _, l⟩ | ⟨e, e1, w1, h, _, _, _, l⟩ |
    ⟨x, e, e1, w1, h, _, _, _, l⟩ | ⟨x, w1, h, hns, hname, hx, hany, c, v, q, l⟩
  · simp [hfin] at hhead
  · exfalso
    rw [h] at hok
    have hbad := hok ⟨.removeAll (p.getLocalPathForPVC pvc), some e⟩ (by simp [events, l])
    simp [Event.succeeded, Call.verb] at hbad
  · exfalso
    rw [h] at hok
    have hbad := hok ⟨.deletePV (p.getPVNameForPVC pvc), some e⟩ (by simp [events, l])
    simp [Event.succeeded, Call.verb] at hbad
  · exfalso
    rw [h] at hok
    have hbad := hok ⟨.updatePVC x, some e⟩ (by simp [events, l])
    simp [Event.succeeded, Call.verb] at hbad
  · rw [h]
    refine ⟨rfl, ?_, ?_, ?_, ?_⟩
    · simp [events, l, Call.verb]
    · show _ ∉ w1.paths
      rw [q]
      simp [isUnder, Provisioner.getLocalPathForPVC, Provisioner.getPVNameForPVC]
    · show w1.volumes.find? _ = none
      rw [v]
      simp [Provisioner.getPVNameForPVC]
    · show (w1.claims.find? _).map _ = _
      rw [c, find_after_update w.claims pvc x hns hname hany]
      simp [hx rest hfin]

/-- Witness for C7 at the terminating claim `pvcTerm`, whose directory
holds a file and whose volume is stored. -/
theorem Handle_scenario_B_witness :
    (p0.Handle env0 pvcTerm wBound).1 = none ∧
    (events wBound (p0.Handle env0 pvcTerm wBound).2).map (fun e => e.call.verb)
      = [Verb.removeAll, Verb.deletePV, Verb.updatePVC] ∧
    path.Join p0.localPath ("pvc-" ++ pvcTerm.UID) ∉ (p0.Handle env0 pvcTerm wBound).2.paths ∧
    (p0.Handle env0 pvcTerm wBound).2.getPV ("pvc-" ++ pvcTerm.UID) = none ∧
    ((p0.Handle env0 pvcTerm wBound).2.getPVC pvcTerm.Namespace pvcTerm.Name).map
      (fun c => c.Finalizers) = some [] :=
  Handle_scenario_B env0 p0 pvcTerm wBound [] (by decide) (by decide) (by decide) (by decide)

/-! ## Binding -/

/-- The store's create verb never touches the directories. -/
theorem Create_dirs (env : Env) (pv : PersistentVolume) (w : World) :
    (PersistentVolumes.Create env pv w).2.dirs = w.dirs := by
  cases hf : env.fault (.createPV pv) with
  | some m => simp [PersistentVolumes.Create, hf, World.record]
  | none =>
    by_cases hany : w.volumes.any (fun v => v.Name == pv.Name) = true
    · simp only [PersistentVolumes.Create, hf, hany, if_true, World.record]
    · simp [PersistentVolumes.Create, hf, hany, World.record]

/-- Creating the volume never touches the directories. -/
theorem createPV_dirs (env : Env) (p : Provisioner) (pvc : PersistentVolumeClaim) (w : World) :
    (p.createPVforPVC env pvc w).2.dirs = w.dirs := by
  cases hn : p.newPVforPVC env pvc with
  | error e => simp [Provisioner.createPVforPVC, hn]
  | ok pv =>
    have hd := Create_dirs env pv w
    cases hc : PersistentVolumes.Create env pv w with
    | mk r w1 =>
      rw [hc] at hd
      cases r with
      | ok newPV => simpa [Provisioner.createPVforPVC, hn, hc] using hd
      | error err =>
        by_cases hx : p.isPVAlreadyExistsError pv (some err) = true
        · simpa [Provisioner.createPVforPVC, hn, hc, hx] using hd
        · simpa [Provisioner.createPVforPVC, hn, hc, hx] using hd

/-- When nothing exists at the claim's path and the directory step succeeds,
the path is a directory afterwards. -/
theorem createLocalPath_dirs (env : Env) (p : Provisioner) (pvc : PersistentVolumeClaim)
    (w w2 : World) (h2 : p.createLocalPathForPVC env pvc w = (none, w2))
    (hf : env.fault (.stat (p.getLocalPathForPVC pvc)) = none)
    (hnp : p.getLocalPathForPVC pvc ∉ w.paths) :
    p.getLocalPathForPVC pvc ∈ w2.dirs := by
  cases hm : env.fault (.mkdir (p.getLocalPathForPVC pvc)) with
  | some m =>
    simp [Provisioner.createLocalPathForPVC, os.Stat, os.Mkdir, hf, hnp, hm, World.record] at h2
  | none =>
    simp [Provisioner.createLocalPathForPVC, os.Stat, os.Mkdir, hf, hnp, hm, World.record] at h2
    rw [← h2]
    simp


/-- C6 as stated fails in two ways.  When `ref.GetReference` cannot build
the claim reference, every store and filesystem call `Handle` issues
succeeds, yet `Handle` returns an error and no volume is stored.  When a
regular file already sits at the claim's path, every call succeeds and
`Handle` returns nil, yet no directory exists at that path. -/
theorem Handle_scenario_A_fails :
    pvcA.StorageClassName = some p0.storageClass ∧ pvcA.Phase = ClaimPending ∧
    pvcA.Finalizers = [] ∧ pvcA.DeletionTimestamp = none ∧
    ((∀ ev ∈ events wA (p0.Handle envNoRef pvcA wA).2, ev.succeeded = true) ∧
      (p0.Handle envNoRef pvcA wA).1 ≠ none ∧
      (p0.Handle envNoRef pvcA wA).2.getPV ("pvc-" ++ pvcA.UID) = none) ∧
    ((∀ ev ∈ events wFile (p0.Handle env0 pvcA wFile).2, ev.succeeded = true) ∧
      (p0.Handle env0 pvcA wFile).1 = none ∧
      path.Join p0.localPath ("pvc-" ++ pvcA.UID) ∉ (p0.Handle env0 pvcA wFile).2.dirs) := by
  decide

/-- C6 amended: for a pending claim of the configured class without
finalizers and without deletion timestamp, when the claim reference can be
built and every call issued by `Handle` succeeds, `Handle` returns nil, the
stored claim's finalizer list is exactly the controller's token, an entry
exists at the path `Join(localPath, "pvc-" + uid)`, which is a directory
whenever nothing existed at that path before, and the volume stored under
`"pvc-" + uid` has the claim's requested storage as its storage capacity. -/
theorem Handle_scenario_A (env : Env) (p : Provisioner) (pvc : PersistentVolumeClaim) (w : World)
    (hsc : pvc.StorageClassName = some p.storageClass)
    (hph : pvc.Phase = ClaimPending)
    (hfin : pvc.Finalizers = [])
    (hdel : pvc.DeletionTimestamp = none)
    (href : ∃ r, env.GetReference { pvc with Finalizers := [finalizerName] } = .ok r)
    (hok : ∀ ev ∈ events w (p.Handle env pvc w).2, ev.succeeded = true) :
    (p.Handle env pvc w).1 = none ∧
    ((p.Handle env pvc w).2.getPVC pvc.Namespace pvc.Name).map (fun c => c.Finalizers)
      = some [finalizerName] ∧
    path.Join p.localPath ("pvc-" ++ pvc.UID) ∈ (p.Handle env pvc w).2.paths ∧
    (path.Join p.localPath ("pvc-" ++ pvc.UID) ∉ w.paths →
      path.Join p.localPath ("pvc-" ++ pvc.UID) ∈ (p.Handle env pvc w).2.dirs) ∧
    ∃ pv, (p.Handle env pvc w).2.getPV ("pvc-" ++ pvc.UID) = some pv ∧
      pv.Capacity.get ResourceStorage = pvc.Requests.get ResourceStorage := by
  obtain ⟨r, hr⟩ := href
  rw [Handle_bind_dispatch env p pvc w (Or.inl hsc) hph hdel] at hok ⊢
  have hnin : finalizerName ∉ pvc.Finalizers := by simp [hfin]
  have hpvc1 : ({ pvc with Finalizers := pvc.Finalizers ++ [finalizerName] } : PersistentVolumeClaim)
      = { pvc with Finalizers := [finalizerName] } := by simp [hfin]
  rcases addFinalizer_cases env p pvc w with
    ⟨hin, _⟩ | ⟨_, e, w1, h1, c1, v1, p1, l1⟩ | ⟨_, w1, h1, hany, c1, v1, p1, l1⟩
  · exact absurd hin hnin
  · exfalso
    have hrun : p.handleUnboundPVC env pvc w = (some (Errorf ("couldn't append finalizer to pvc, see: "
        ++ (Errorf ("couldn't update pvc, see: " ++ e.Error)).Error)), w1) := by
      simp [Provisioner.handleUnboundPVC, h1]
    rw [hrun, events_of_log w w1 _ l1] at hok
    simp [Event.succeeded, Call.verb] at hok
  · rw [hpvc1] at h1 c1 l1
    have hpath : p.getLocalPathForPVC { pvc with Finalizers := [finalizerName] }
        = path.Join p.localPath ("pvc-" ++ pvc.UID) := rfl
    have hstored : (w1.claims.find? (fun c => c.Namespace == pvc.Namespace && c.Name == pvc.Name)).map
        (fun c => c.Finalizers) = some [finalizerName] := by
      rw [c1, find_after_update w.claims pvc { pvc with Finalizers := [finalizerName] } rfl rfl hany]
      rfl
    have key : ∀ w2 evs, p.createLocalPathForPVC env { pvc with Finalizers := [finalizerName] } w1
          = (none, w2) → w2.claims = w1.claims → w2.volumes = w1.volumes →
        path.Join p.localPath ("pvc-" ++ pvc.UID) ∈ w2.paths →
        (path.Join p.localPath ("pvc-" ++ pvc.UID) ∉ w.paths →
          path.Join p.localPath ("pvc-" ++ pvc.UID) ∈ w2.dirs) →
        w2.log = w.log ++ evs →
        (p.handleUnboundPVC env pvc w).1 = none ∧
        ((p.handleUnboundPVC env pvc w).2.getPVC pvc.Namespace pvc.Name).map (fun c => c.Finalizers)
          = some [finalizerName] ∧
        path.Join p.localPath ("pvc-" ++ pvc.UID) ∈ (p.handleUnboundPVC env pvc w).2.paths ∧
        (path.Join p.localPath ("pvc-" ++ pvc.UID) ∉ w.paths →
          path.Join p.localPath ("pvc-" ++ pvc.UID) ∈ (p.handleUnboundPVC env pvc w).2.dirs) ∧
        ∃ pv, (p.handleUnboundPVC env pvc w).2.getPV ("pvc-" ++ pvc.UID) = some pv ∧
          pv.Capacity.get ResourceStorage = pvc.Requests.get ResourceStorage := by
      intro w2 evs h2 c2 v2 hp2 hd2 l2
      rcases createPV_cases env p { pvc with Finalizers := [finalizerName] } w2 with
        ⟨e, e1, hge, _⟩ | ⟨pv, e, e1, w3, _, h3, _, _, _, l3⟩ |
        ⟨pv, e, w3, _, _, _, h3, _, _, _, l3⟩ | ⟨pv, w3, hpv, _, hnone, h3, c3, v3, p3, l3⟩
      · rw [hr] at hge
        cases hge
      · exfalso
        have hrun : (p.handleUnboundPVC env pvc w).2 = w3 := by
          simp [Provisioner.handleUnboundPVC, h1, h2, h3]
        rw [hrun] at hok
        have hbad := hok ⟨.createPV pv, some e⟩ (by simp [events, l3, l2])
        simp [Event.succeeded, Call.verb] at hbad
      · exfalso
        have hrun : (p.handleUnboundPVC env pvc w).2 = w3 := by
          simp [Provisioner.handleUnboundPVC, h1, h2, h3]
        rw [hrun] at hok
        have hbad := hok ⟨.createPV pv, some e⟩ (by simp [events, l3, l2])
        simp [Event.succeeded, Call.verb] at hbad
      · have hrun : p.handleUnboundPVC env pvc w = (none, w3) := by
          simp [Provisioner.handleUnboundPVC, h1, h2, h3]
        obtain ⟨hname, hcap, _⟩ := newPV_fields env p _ pv hpv
        have hname2 : pv.Name = "pvc-" ++ pvc.UID := hname
        have hd3 : w3.dirs = w2.dirs := by
          have hd := createPV_dirs env p { pvc with Finalizers := [finalizerName] } w2
          rw [h3] at hd
          exact hd
        rw [hrun]
        refine ⟨rfl, ?_, ?_, ?_, pv, ?_, ?_⟩
        · show (w3.claims.find? _).map _ = _
          rw [c3, c2]
          exact hstored
        · show _ ∈ w3.paths
          rw [p3]
          exact hp2
        · intro hn
          show _ ∈ w3.dirs
          rw [hd3]
          exact hd2 hn
        · show w3.volumes.find? _ = _
          rw [v3, ← hname2]
          exact find_after_create w2.volumes pv hnone
        · rw [hcap]
          simp [ResourceList.get, List.lookup]
    rcases createLocalPath_cases env p { pvc with Finalizers := [finalizerName] } w1 with
      ⟨m, w2, _, h2, c2, v2, p2, l2⟩ | ⟨_, hex, w2, h2, c2, v2, p2, l2⟩ |
      ⟨_, _, e0, e, e1, w2, _, h2, c2, v2, p2, l2⟩ | ⟨hfs, hnp, e0, w2, he0, h2, c2, v2, p2, l2⟩
    · exfalso
      have hlog : w2.log = w.log ++ [⟨.updatePVC { pvc with Finalizers := [finalizerName] }, none⟩,
          ⟨.stat (p.getLocalPathForPVC { pvc with Finalizers := [finalizerName] }),
            some (Errorf m)⟩] := by
        rw [l2, l1]; simp
      rcases createPV_cases env p { pvc with Finalizers := [finalizerName] } w2 with
        ⟨e, e1, _, h3⟩ | ⟨pv, e, e1, w3, _, h3, _, _, _, l3⟩ |
        ⟨pv, e, w3, _, _, _, h3, _, _, _, l3⟩ | ⟨pv, w3, _, _, _, h3, _, _, _, l3⟩
      · have hrun : (p.handleUnboundPVC env pvc w).2 = w2 := by
          simp [Provisioner.handleUnboundPVC, h1, h2, h3]
        rw [hrun] at hok
        simp [events, hlog, Event.succeeded, Errorf, Call.verb] at hok
      all_goals
        have hrun : (p.handleUnboundPVC env pvc w).2 = w3 := by
          simp [Provisioner.handleUnboundPVC, h1, h2, h3]
        rw [hrun] at hok
        simp [events, l3, hlog, Event.succeeded, Errorf, Call.verb] at hok
    · exact key w2 _ h2 c2 v2 (by rw [p2]; exact hex)
        (fun hn => absurd (by rw [← p1, ← hpath]; exact hex) hn)
        (by rw [l2, l1, List.append_assoc])
    · exfalso
      have hrun : (p.handleUnboundPVC env pvc w).2 = w2 := by
        simp [Provisioner.handleUnboundPVC, h1, h2]
      rw [hrun] at hok
      simp [events, l2, l1, Event.succeeded, Errorf, Call.verb] at hok
    · exact key w2 _ h2 c2 v2 (by rw [p2]; simp [hpath])
        (fun _ => createLocalPath_dirs env p _ w1 w2 h2 hfs hnp)
        (by rw [l2, l1, List.append_assoc])

/-- Witness for the amended C6 at the pending claim `pvcA`, at whose path
nothing exists beforehand. -/
theorem Handle_scenario_A_witness :
    (p0.Handle env0 pvcA wA).1 = none ∧
    ((p0.Handle env0 pvcA wA).2.getPVC pvcA.Namespace pvcA.Name).map (fun c => c.Finalizers)
      = some [finalizerName] ∧
    path.Join p0.localPath ("pvc-" ++ pvcA.UID) ∈ (p0.Handle env0 pvcA wA).2.paths ∧
    path.Join p0.localPath ("pvc-" ++ pvcA.UID) ∈ (p0.Handle env0 pvcA wA).2.dirs ∧
    ∃ pv, (p0.Handle env0 pvcA wA).2.getPV ("pvc-" ++ pvcA.UID) = some pv ∧
      pv.Capacity.get ResourceStorage = pvcA.Requests.get ResourceStorage := by
  obtain ⟨a, b, c, d, e⟩ := Handle_scenario_A env0 p0 pvcA wA (by decide) (by decide)
    (by decide) (by decide) ⟨_, rfl⟩ (by decide)
  exact ⟨a, b, c, d (by decide), e⟩

/-! ## Running the bind sequence again -/

/-- When the path exists, or the query fails for an outside reason, only the
query is issued. -/
theorem createLocalPath_again (env : Env) (p : Provisioner) (pvc : PersistentVolumeClaim)
    (w : World)
    (h : env.fault (.stat (p.getLocalPathForPVC pvc)) ≠ none ∨ p.getLocalPathForPVC pvc ∈ w.paths) :
    ∃ se, p.createLocalPathForPVC env pvc w
      = (none, w.record (.stat (p.getLocalPathForPVC pvc)) se) := by
  cases hf : env.fault (.stat (p.getLocalPathForPVC pvc)) with
  | some m =>
    exact ⟨some (Errorf m), by simp [Provisioner.createLocalPathForPVC, os.Stat, hf, Errorf]⟩
  | none =>
    rcases h with h | h
    · exact absurd hf h
    · exact ⟨none, by simp [Provisioner.createLocalPathForPVC, os.Stat, hf, h]⟩

/-- When the create call meets an already-exists error, the built volume is
returned and nothing is stored. -/
theorem createPV_again (env : Env) (p : Provisioner) (pvc : PersistentVolumeClaim) (w : World)
    (pv : PersistentVolume) (hpv : p.newPVforPVC env pvc = .ok pv)
    (h : (∃ e : GoError, env.fault (.createPV pv) = some e.msg ∧
            p.isPVAlreadyExistsError pv (some e) = true) ∨
         (env.fault (.createPV pv) = none ∧ w.volumes.any (fun v => v.Name == pv.Name) = true)) :
    ∃ e, p.createPVforPVC env pvc w = (.ok pv, w.record (.createPV pv) (some e)) ∧
      p.isPVAlreadyExistsError pv (some e) = true := by
  rcases h with ⟨e, hf, hx⟩ | ⟨hf, hany⟩
  · have hx2 : p.isPVAlreadyExistsError pv (some (Errorf e.msg)) = true := hx
    exact ⟨Errorf e.msg,
      by simp [Provisioner.createPVforPVC, hpv, PersistentVolumes.Create, hf, hx2], hx2⟩
  · have hx : p.isPVAlreadyExistsError pv
        (some (Errorf ("persistentvolumes \"" ++ pv.Name ++ "\" already exists"))) = true := by
      simp [Provisioner.isPVAlreadyExistsError, GoError.Error, Errorf, Contains_self]
    exact ⟨_, by simp only [Provisioner.createPVforPVC, hpv, PersistentVolumes.Create, hf, hany,
      if_true, hx], hx⟩

/-- The bind sequence on a claim that has the token, whose path exists and
whose volume create meets an already-exists error. -/
theorem handleUnbound_again (env : Env) (p : Provisioner) (pvc : PersistentVolumeClaim)
    (w : World) (pv : PersistentVolume)
    (hin : finalizerName ∈ pvc.Finalizers)
    (hstat : env.fault (.stat (p.getLocalPathForPVC pvc)) ≠ none ∨
      p.getLocalPathForPVC pvc ∈ w.paths)
    (hpv : p.newPVforPVC env pvc = .ok pv)
    (hcreate : (∃ e : GoError, env.fault (.createPV pv) = some e.msg ∧
            p.isPVAlreadyExistsError pv (some e) = true) ∨
         (env.fault (.createPV pv) = none ∧ w.volumes.any (fun v => v.Name == pv.Name) = true)) :
    ∃ w2 se e, p.handleUnboundPVC env pvc w = (none, w2) ∧
      w2.claims = w.claims ∧ w2.paths = w.paths ∧ w2.volumes = w.volumes ∧
      events w w2 = [⟨.stat (p.getLocalPathForPVC pvc), se⟩, ⟨.createPV pv, some e⟩] ∧
      p.isPVAlreadyExistsError pv (some e) = true := by
  have hlen : pvc.Finalizers.length > 0 := List.length_pos_of_mem hin
  have h1 : p.addFinalizerToPVC env pvc w = (.ok pvc, w) := by
    simp [Provisioner.addFinalizerToPVC, hin, hlen]
  obtain ⟨se, h2⟩ := createLocalPath_again env p pvc w hstat
  obtain ⟨e, h3, hx⟩ := createPV_again env p pvc
    (w.record (.stat (p.getLocalPathForPVC pvc)) se) pv hpv hcreate
  refine ⟨(w.record (.stat (p.getLocalPathForPVC pvc)) se).record (.createPV pv) (some e), se, e,
    by simp only [Provisioner.handleUnboundPVC, h1, h2, h3], rfl, rfl, rfl, ?_, hx⟩
  simp [events, World.record]

/-- What a successful directory step and volume step leave behind. -/
theorem provision_facts (env : Env) (p : Provisioner) (pvc : PersistentVolumeClaim)
    (wa w2 w1 : World) (pvX : PersistentVolume)
    (h2 : p.createLocalPathForPVC env pvc wa = (none, w2))
    (h3 : p.createPVforPVC env pvc w2 = (.ok pvX, w1)) :
    w1.claims = wa.claims ∧
    (env.fault (.stat (p.getLocalPathForPVC pvc)) ≠ none ∨ p.getLocalPathForPVC pvc ∈ w1.paths) ∧
    ∃ pv, p.newPVforPVC env pvc = .ok pv ∧
      ((∃ e : GoError, env.fault (.createPV pv) = some e.msg ∧
            p.isPVAlreadyExistsError pv (some e) = true) ∨
       (env.fault (.createPV pv) = none ∧ w1.volumes.any (fun v => v.Name == pv.Name) = true)) := by
  have hstat : w2.claims = wa.claims ∧
      (env.fault (.stat (p.getLocalPathForPVC pvc)) ≠ none ∨ p.getLocalPathForPVC pvc ∈ w2.paths) := by
    rcases createLocalPath_cases env p pvc wa with
      ⟨m, w2', hf, h2', c2, v2, p2, l2⟩ | ⟨hf, hex, w2', h2', c2, v2, p2, l2⟩ |
      ⟨_, _, e0, e, e1, w2', _, h2', _⟩ | ⟨hf, hnex, e0, w2', _, h2', c2, v2, p2, l2⟩
    · rw [h2] at h2'
      simp only [Prod.mk.injEq, true_and] at h2'
      subst h2'
      exact ⟨c2, Or.inl (by simp [hf])⟩
    · rw [h2] at h2'
      simp only [Prod.mk.injEq, true_and] at h2'
      subst h2'
      exact ⟨c2, Or.inr (by rw [p2]; exact hex)⟩
    · rw [h2] at h2'
      simp at h2'
    · rw [h2] at h2'
      simp only [Prod.mk.injEq, true_and] at h2'
      subst h2'
      exact ⟨c2, Or.inr (by rw [p2]; simp)⟩
  rcases createPV_cases env p pvc w2 with
    ⟨e, e1, _, h3'⟩ | ⟨pv, e, e1, w3, _, h3', _⟩ |
    ⟨pv, e, w3, hpv, hx, hc, h3', c3, v3, p3, l3⟩ | ⟨pv, w3, hpv, hf, hnone, h3', c3, v3, p3, l3⟩
  · rw [h3] at h3'
    simp at h3'
  · rw [h3] at h3'
    simp at h3'
  · rw [h3] at h3'
    simp only [Prod.mk.injEq, Except.ok.injEq] at h3'
    obtain ⟨_, rfl⟩ := h3'
    refine ⟨by rw [c3, hstat.1], ?_, pv, hpv, ?_⟩
    · rw [p3]; exact hstat.2
    · rcases hc with hc | ⟨hf, hany⟩
      · exact Or.inl ⟨e, hc, hx⟩
      · exact Or.inr ⟨hf, by rw [v3]; exact hany⟩
  · rw [h3] at h3'
    simp only [Prod.mk.injEq, Except.ok.injEq] at h3'
    obtain ⟨_, rfl⟩ := h3'
    refine ⟨by rw [c3, hstat.1], ?_, pv, hpv, Or.inr ⟨hf, ?_⟩⟩
    · rw [p3]; exact hstat.2
    · rw [v3]; simp

/-- A successful bind run went through a successful directory step and a
successful volume step. -/
theorem handleUnbound_split (env : Env) (p : Provisioner) (pvc pvc1 : PersistentVolumeClaim)
    (w wa w1 : World) (h1 : p.addFinalizerToPVC env pvc w = (.ok pvc1, wa))
    (hrun : p.handleUnboundPVC env pvc w = (none, w1)) :
    ∃ w2 pvX, p.createLocalPathForPVC env pvc1 wa = (none, w2) ∧
      p.createPVforPVC env pvc1 w2 = (.ok pvX, w1) := by
  simp only [Provisioner.handleUnboundPVC, h1] at hrun
  cases h2 : p.createLocalPathForPVC env pvc1 wa with
  | mk r2 w2 =>
    cases r2 with
    | some e => simp [h2] at hrun
    | none =>
      simp only [h2] at hrun
      cases h3 : p.createPVforPVC env pvc1 w2 with
      | mk r3 w3 =>
        cases r3 with
        | error e => simp [h3] at hrun
        | ok pvX =>
          simp only [h3, Prod.mk.injEq, true_and] at hrun
          subst hrun
          exact ⟨w2, pvX, rfl, h3⟩

/-- What a successful bind run leaves behind: the token on the claim the run
continued with, that claim stored if it was updated, the path present, the
volume create bound to meet an already-exists error. -/
theorem handleUnbound_first (env : Env) (p : Provisioner) (pvc pvc1 : PersistentVolumeClaim)
    (w w1 : World)
    (hadd : (p.addFinalizerToPVC env pvc w).1 = .ok pvc1)
    (hrun : p.handleUnboundPVC env pvc w = (none, w1)) :
    finalizerName ∈ pvc1.Finalizers ∧
    pvc1.StorageClassName = pvc.StorageClassName ∧ pvc1.Phase = pvc.Phase ∧
    pvc1.DeletionTimestamp = pvc.DeletionTimestamp ∧
    (finalizerName ∉ pvc.Finalizers → w1.getPVC pvc.Namespace pvc.Name = some pvc1) ∧
    (env.fault (.stat (p.getLocalPathForPVC pvc1)) ≠ none ∨ p.getLocalPathForPVC pvc1 ∈ w1.paths) ∧
    ∃ pv, p.newPVforPVC env pvc1 = .ok pv ∧
      ((∃ e : GoError, env.fault (.createPV pv) = some e.msg ∧
            p.isPVAlreadyExistsError pv (some e) = true) ∨
       (env.fault (.createPV pv) = none ∧ w1.volumes.any (fun v => v.Name == pv.Name) = true)) := by
  rcases addFinalizer_cases env p pvc w with
    ⟨hin, h1⟩ | ⟨_, e, wa, h1, _⟩ | ⟨hnin, wa, h1, hany, c1, v1, p1, l1⟩
  · rw [h1] at hadd
    simp only [Except.ok.injEq] at hadd
    subst hadd
    obtain ⟨w2, pvX, h2, h3⟩ := handleUnbound_split env p pvc pvc w w w1 h1 hrun
    obtain ⟨_, hs, hp⟩ := provision_facts env p pvc w w2 w1 pvX h2 h3
    exact ⟨hin, rfl, rfl, rfl, fun h => absurd hin h, hs, hp⟩
  · rw [h1] at hadd
    simp at hadd
  · rw [h1] at hadd
    simp only [Except.ok.injEq] at hadd
    subst hadd
    obtain ⟨w2, pvX, h2, h3⟩ := handleUnbound_split env p pvc _ w wa w1 h1 hrun
    obtain ⟨hc, hs, hp⟩ := provision_facts env p _ wa w2 w1 pvX h2 h3
    refine ⟨by simp, rfl, rfl, rfl, fun _ => ?_, hs, hp⟩
    show w1.claims.find? _ = _
    rw [hc, c1]
    exact find_after_update w.claims pvc _ rfl rfl hany

/-- C5 amended: after a successful bind run for a pending claim of the
configured class, a second run on the claim as the first run left it (the
stored claim whenever the first run had to add the finalizer) returns nil,
leaves stored claims, paths and volumes as they were, and issues exactly two
calls: the existence query for the directory and one volume create, which
comes back with an already-exists error that is absorbed.  No claim update
and no directory creation is issued. -/
theorem Handle_bind_twice (env : Env) (p : Provisioner) (pvc pvc1 : PersistentVolumeClaim)
    (w w1 : World)
    (hsc : pvc.StorageClassName = some p.storageClass)
    (hph : pvc.Phase = ClaimPending) (hdel : pvc.DeletionTimestamp = none)
    (hadd : (p.addFinalizerToPVC env pvc w).1 = .ok pvc1)
    (hrun : p.Handle env pvc w = (none, w1)) :
    (finalizerName ∉ pvc.Finalizers → w1.getPVC pvc.Namespace pvc.Name = some pvc1) ∧
    ∃ w2 se pv e, p.Handle env pvc1 w1 = (none, w2) ∧
      w2.claims = w1.claims ∧ w2.paths = w1.paths ∧ w2.volumes = w1.volumes ∧
      events w1 w2 = [⟨.stat (p.getLocalPathForPVC pvc1), se⟩, ⟨.createPV pv, some e⟩] ∧
      p.isPVAlreadyExistsError pv (some e) = true := by
  rw [Handle_bind_dispatch env p pvc w (Or.inl hsc) hph hdel] at hrun
  obtain ⟨hin, hsc1, hph1, hdel1, hstored, hstat, pv, hpv, hcreate⟩ :=
    handleUnbound_first env p pvc pvc1 w w1 hadd hrun
  obtain ⟨w2, se, e, h, c, q, v, hev, hx⟩ :=
    handleUnbound_again env p pvc1 w1 pv hin hstat hpv hcreate
  refine ⟨hstored, w2, se, pv, e, ?_, c, q, v, hev, hx⟩
  rw [Handle_bind_dispatch env p pvc1 w1 (Or.inl (hsc1.trans hsc)) (hph1.trans hph)
    (hdel1.trans hdel)]
  exact h

/-- Witness for the amended C5 at the claim `pvcA`. -/
theorem Handle_bind_twice_witness :
    (finalizerName ∉ pvcA.Finalizers →
      (p0.Handle env0 pvcA wA).2.getPVC pvcA.Namespace pvcA.Name = some pvcA1) ∧
    ∃ w2 se pv e, p0.Handle env0 pvcA1 (p0.Handle env0 pvcA wA).2 = (none, w2) ∧
      w2.claims = (p0.Handle env0 pvcA wA).2.claims ∧
      w2.paths = (p0.Handle env0 pvcA wA).2.paths ∧
      w2.volumes = (p0.Handle env0 pvcA wA).2.volumes ∧
      events (p0.Handle env0 pvcA wA).2 w2
        = [⟨.stat (p0.getLocalPathForPVC pvcA1), se⟩, ⟨.createPV pv, some e⟩] ∧
      p0.isPVAlreadyExistsError pv (some e) = true :=
  Handle_bind_twice env0 p0 pvcA pvcA1 wA (p0.Handle env0 pvcA wA).2 rfl rfl rfl rfl rfl

/-- C5 as stated fails: the second bind run for `pvcA`, on the state the
first run left, issues a volume create again; the store answers with an
already-exists error. -/
theorem Handle_bind_twice_creates_again :
    (p0.Handle env0 pvcA wA).1 = none ∧
    (p0.Handle env0 pvcA wA).2.getPVC "default" "data" = some pvcA1 ∧
    (p0.Handle env0 pvcA1 (p0.Handle env0 pvcA wA).2).1 = none ∧
    (events (p0.Handle env0 pvcA wA).2 (p0.Handle env0 pvcA1 (p0.Handle env0 pvcA wA).2).2).map
        (fun e => (e.call, e.err.map (fun x => x.msg)))
      = [(Call.stat "/storage/pvc-u1", none),
         (Call.createPV pvA, some "persistentvolumes \"pvc-u1\" already exists")] := by
  decide

/-! ## Naming -/

/-- C8: the volume name is `pvc-` followed by the claim's unique id, the
local path is the configured root joined with that name, a volume built by
`newPVforPVC` carries that name and the driver options `clusterNamespace`,
`fsName` and `path = "/" + name`; a volume is built whenever the claim
reference can be obtained, and all of these agree for claims that agree on
the unique id. -/
theorem naming_contract (env : Env) (p : Provisioner) (pvc : PersistentVolumeClaim) :
    p.getPVNameForPVC pvc = "pvc-" ++ pvc.UID ∧
    p.getLocalPathForPVC pvc = path.Join p.localPath ("pvc-" ++ pvc.UID) ∧
    (∀ pv, p.newPVforPVC env pvc = .ok pv →
      pv.Name = "pvc-" ++ pvc.UID ∧
      pv.FlexVolume.Options =
        [("clusterNamespace", p.clusterNamespace), ("fsName", p.fsName),
         ("path", "/" ++ ("pvc-" ++ pvc.UID))]) ∧
    (∀ r, env.GetReference pvc = .ok r → ∃ pv, p.newPVforPVC env pvc = .ok pv) ∧
    (∀ pvc2 : PersistentVolumeClaim, pvc2.UID = pvc.UID →
      p.getPVNameForPVC pvc2 = p.getPVNameForPVC pvc ∧
      p.getLocalPathForPVC pvc2 = p.getLocalPathForPVC pvc ∧
      ∀ pv pv2, p.newPVforPVC env pvc = .ok pv → p.newPVforPVC env pvc2 = .ok pv2 →
        pv2.Name = pv.Name ∧ pv2.FlexVolume.Options = pv.FlexVolume.Options) := by
  have hbuilt : ∀ (c : PersistentVolumeClaim) (pv : PersistentVolume),
      p.newPVforPVC env c = .ok pv →
      pv.Name = "pvc-" ++ c.UID ∧
      pv.FlexVolume.Options =
        [("clusterNamespace", p.clusterNamespace), ("fsName", p.fsName),
         ("path", "/" ++ ("pvc-" ++ c.UID))] := by
    intro c pv h
    unfold Provisioner.newPVforPVC at h
    cases hr : env.GetReference c with
    | error e => simp [hr] at h
    | ok r =>
      simp only [hr, Except.ok.injEq] at h
      subst h
      exact ⟨rfl, rfl⟩
  refine ⟨rfl, rfl, hbuilt pvc, ?_, ?_⟩
  · intro r hr
    unfold Provisioner.newPVforPVC
    simp [hr]
  · intro pvc2 huid
    refine ⟨?_, ?_, ?_⟩
    · simp [Provisioner.getPVNameForPVC, huid]
    · simp [Provisioner.getLocalPathForPVC, Provisioner.getPVNameForPVC, huid]
    · intro pv pv2 h1 h2
      obtain ⟨a1, a2⟩ := hbuilt pvc pv h1
      obtain ⟨b1, b2⟩ := hbuilt pvc2 pv2 h2
      rw [a1, a2, b1, b2, huid]
      exact ⟨rfl, rfl⟩

/-- Witness for C8 at the claim `pvcA` under `/storage`. -/
theorem naming_contract_witness :
    p0.getPVNameForPVC pvcA = "pvc-u1" ∧
    p0.getLocalPathForPVC pvcA = "/storage/pvc-u1" ∧
    ∃ pv, p0.newPVforPVC env0 pvcA = .ok pv ∧ pv.Name = "pvc-" ++ pvcA.UID ∧
      pv.FlexVolume.Options =
        [("clusterNamespace", "rook-ceph"), ("fsName", "myfs"), ("path", "/" ++ ("pvc-" ++ pvcA.UID))] := by
  obtain ⟨h1, _, h3, h4, _⟩ := naming_contract env0 p0 pvcA
  obtain ⟨pv, hpv⟩ := h4 ⟨"PersistentVolumeClaim", "v1", "default", "data", "u1"⟩ rfl
  exact ⟨h1, by decide, pv, hpv, h3 pv hpv⟩

/-! ## Failing steps -/

/-- C10: `sync` drops a key that cannot be split without any call; after a
not-found lookup it returns nil without invoking the handler; any other
lookup error is returned as it is; otherwise the handler is invoked once, on
the copy of the claim, and `sync` returns an error exactly when the handler
did. -/
theorem sync_spec {σ : Type} (cc : Controller σ) (key : String) (s : σ) :
    (∀ e, SplitMetaNamespaceKey key = .error e → cc.sync key s = (none, [], s)) ∧
    (∀ ns name, SplitMetaNamespaceKey key = .ok (ns, name) →
      (∀ e, cc.pvcLister ns name = .error e → e.notFound = true →
        cc.sync key s = (none, [SyncCall.Get ns name], s)) ∧
      (∀ e, cc.pvcLister ns name = .error e → e.notFound = false →
        cc.sync key s = (some e, [SyncCall.Get ns name], s)) ∧
      (∀ pvc, cc.pvcLister ns name = .ok pvc →
        (cc.sync key s).2.1 = [SyncCall.Get ns name, SyncCall.handler pvc.DeepCopy] ∧
        (cc.sync key s).2.2 = (cc.handler pvc.DeepCopy s).2 ∧
        ((cc.sync key s).1 ≠ none ↔ (cc.handler pvc.DeepCopy s).1 ≠ none))) := by
  refine ⟨?_, ?_⟩
  · intro e he
    simp [Controller.sync, he]
  · intro ns name hk
    refine ⟨?_, ?_, ?_⟩
    · intro e he hnf
      simp [Controller.sync, hk, he, hnf]
    · intro e he hnf
      simp [Controller.sync, hk, he, hnf]
    · intro pvc hp
      cases hh : cc.handler pvc.DeepCopy s with
      | mk r s1 =>
        cases r with
        | none => simp [Controller.sync, hk, hp, hh]
        | some err => simp [Controller.sync, hk, hp, hh]

/-- Witness for C10 on the controller `cc0`: a malformed key, a key of no
cached claim and the key of `pvcA`. -/
theorem sync_spec_witness :
    cc0.sync "a/b/c" wA = (none, [], wA) ∧
    cc0.sync "default/missing" wA = (none, [SyncCall.Get "default" "missing"], wA) ∧
    (cc0.sync "default/data" wA).2.1 = [SyncCall.Get "default" "data", SyncCall.handler pvcA] ∧
    (cc0.sync "default/data" wA).2.2 = (p0.Handle env0 pvcA wA).2 :=
  ⟨(sync_spec cc0 "a/b/c" wA).1 (Errorf "unexpected key format: \"a/b/c\"") (by rfl),
   ((sync_spec cc0 "default/missing" wA).2 "default" "missing" (by rfl)).1
      ⟨"persistentvolumeclaims \"missing\" not found", true, false⟩ (by rfl) rfl,
   (((sync_spec cc0 "default/data" wA).2 "default" "data" (by rfl)).2.2 pvcA (by rfl)).1,
   (((sync_spec cc0 "default/data" wA).2 "default" "data" (by rfl)).2.2 pvcA (by rfl)).2.1⟩

end RookCephfs
